import Mathlib

/-!
# The task-list service of `main.go`

A shallow embedding of the two HTTP handlers of `main.go` (`tasksHandler` for the
collection `/tasks`, `taskHandler` for an item `/tasks/{id}`) over an explicit store state,
followed by the properties of the service that were checked against it.

Modelling conventions

* Where requests are handled one after another, a handler is a function from the store
  before the call and the request to the store after the call and the response; the mutex
  `mu` has no content in this sequential reading and is left out.  Where requests are in
  flight together, the item handler is split at its two critical sections and goroutines
  take turns one critical section at a time (`Thread`, `exec`).
* Go's `int` is the 64-bit one: a value of it is an `Int`, the increment `api.nextID++`
  wraps around at `2^63 - 1` (`wrapInt`), and `strconv.Atoi` has its 64-bit range check.
* A request body is represented by what `json.NewDecoder(r.Body).Decode(&input)` makes of
  it for the two input structs of the program (see `Body`).  Where the content of a body
  matters, the body is given by the JSON value it starts with and the outcome is computed
  from that value as `encoding/json` does for these structs (`Body.ofJSON`).
* A response is the status code together with the value handed to `writeJSON`, before it is
  serialised.  The array answered by `GET /tasks` is a multiset: Go leaves the iteration
  order of a map unspecified.  A nil slice, which is serialised as `null`, is a value of its
  own (`Data.null`).
-/

namespace TaskAPI

/-! ## Data model -/

/-- The `Task` struct. -/
structure Task where
  ID : Int
  Title : String
  Completed : Bool
deriving DecidableEq

/-- The type `map[int]Task`: finitely many keys, each bound to one `Task`. -/
abbrev TaskMap := AList (fun _ : Int => Task)

/-- The `API` struct: the task map and the id counter (the mutex is not modelled). -/
structure API where
  tasks : TaskMap
  nextID : Int
deriving DecidableEq

/-- The constructor `NewAPI`: an empty map and `nextID` 1. -/
def NewAPI : API := { tasks := ∅, nextID := 1 }

/-- A request body, given by the outcome of `json.NewDecoder(r.Body).Decode(&input)` on it:
`Title` for `input struct { Title string }` (the POST handler) and `Completed` for
`input struct { Completed bool }` (the PUT handler).  `none` stands for `err != nil`,
`some v` for a successful decode that left `v` in the field. -/
structure Body where
  Title : Option String
  Completed : Option Bool
deriving DecidableEq

/-- The parts of `*http.Request` the handlers read: `r.Method`, `r.URL.Path`, `r.Body`. -/
structure Request where
  Method : String
  Path : String
  Body : Body
deriving DecidableEq

/-- The values the program can pass to `writeJSON`: a non-nil `[]Task` (up to order), which
the encoder writes as an array; a nil `[]Task`, which it writes as `null`; a `Task`; or a
one-entry `map[string]string`. -/
inductive Data where
  | tasks (list : Multiset Task)
  | null
  | task (t : Task)
  | object (key value : String)
deriving DecidableEq

/-- A value of type `[]Task`: `none` is the nil slice, `some l` a non-nil slice with the
elements `l`. -/
abbrev Slice := Option (List Task)

/-- What `writeJSON` is handed when it is handed a `[]Task`. -/
def Data.ofSlice : Slice → Data
  | none => Data.null
  | some l => Data.tasks l

/-- What a handler writes to the `http.ResponseWriter`. -/
structure Response where
  contentType : String
  status : Nat
  data : Data
deriving DecidableEq

/-! ## Language and library functions used by the handlers -/

/-- The value a result of `int` arithmetic has on a 64-bit platform: the one integer in
`-2^63 .. 2^63 - 1` that differs from `x` by a multiple of `2^64`. -/
def wrapInt (x : Int) : Int := (x + 2 ^ 63) % 2 ^ 64 - 2 ^ 63

/-- The builtin `make([]Task, 0, n)`: a non-nil slice without elements (the capacity `n` is
not part of the value). -/
def make (_n : Nat) : Slice := some []

/-- The builtin `append(list, task)`: never nil, the elements of `list` followed by `task`. -/
def append (list : Slice) (task : Task) : Slice := some (list.getD [] ++ [task])

/-- The function `strings.TrimPrefix`, on the characters of the strings. -/
def TrimPrefix (s pre : List Char) : List Char :=
  if pre.isPrefixOf s then s.drop pre.length else s

/-- Value of a run of decimal digits, most significant first, continuing from `n`;
`none` as soon as a character is not one of `0`..`9`. -/
def parseDigits : List Char → Nat → Option Nat
  | [], n => some n
  | c :: cs, n =>
    if 48 ≤ c.toNat ∧ c.toNat ≤ 57 then parseDigits cs (n * 10 + (c.toNat - 48)) else none

/-- An unsigned decimal: at least one digit, nothing but digits. -/
def parseUint (cs : List Char) : Option Nat :=
  if cs = [] then none else parseDigits cs 0

/-- The function `strconv.Atoi` on a 64-bit platform: an optional sign, then one or more
decimal digits, and the value has to lie in `-2^63 .. 2^63 - 1`.  `none` stands for a
non-nil error (syntax or range). -/
def Atoi (s : List Char) : Option Int :=
  match s with
  | [] => none
  | c :: cs =>
    if c = '-' then
      (parseUint cs).bind fun n => if n ≤ 2 ^ 63 then some (-(n : Int)) else none
    else if c = '+' then
      (parseUint cs).bind fun n => if n < 2 ^ 63 then some (n : Int) else none
    else
      (parseUint (c :: cs)).bind fun n => if n < 2 ^ 63 then some (n : Int) else none

/-! ## The handlers -/

/-- The helper `writeJSON`. -/
def writeJSON (status : Nat) (data : Data) : Response :=
  { contentType := "application/json", status := status, data := data }

/-- The helper `writeError`. -/
def writeError (status : Nat) (msg : String) : Response :=
  writeJSON status (Data.object "error" msg)

/-- The lines `list := make([]Task, 0, len(api.tasks))` and
`for _, task := range api.tasks { list = append(list, task) }`. -/
def listTasks (m : TaskMap) : Slice :=
  m.foldl (fun list _ task => append list task) (make m.keys.length)

/-- The handler `tasksHandler`. -/
def tasksHandler (api : API) (r : Request) : API × Response :=
  if r.Method = "GET" then
    (api, writeJSON 200 (Data.ofSlice (listTasks api.tasks)))
  else if r.Method = "POST" then
    match r.Body.Title with
    | none => (api, writeError 400 "invalid json")
    | some title =>
      let task : Task := { ID := api.nextID, Title := title, Completed := false }
      ({ tasks := api.tasks.insert api.nextID task, nextID := wrapInt (api.nextID + 1) },
        writeJSON 201 (Data.task task))
  else
    (api, writeError 405 "method not allowed")

/-- The handler `taskHandler`. -/
def taskHandler (api : API) (r : Request) : API × Response :=
  match Atoi (TrimPrefix r.Path.data "/tasks/".data) with
  | none => (api, writeError 400 "invalid id")
  | some id =>
    match api.tasks.lookup id with
    | none => (api, writeError 404 "task not found")
    | some task =>
      if r.Method = "GET" then
        (api, writeJSON 200 (Data.task task))
      else if r.Method = "PUT" then
        match r.Body.Completed with
        | none => (api, writeError 400 "invalid json")
        | some completed =>
          let task : Task := { task with Completed := completed }
          ({ api with tasks := api.tasks.insert id task }, writeJSON 200 (Data.task task))
      else if r.Method = "DELETE" then
        ({ api with tasks := api.tasks.erase id }, writeJSON 200 (Data.object "status" "deleted"))
      else
        (api, writeError 405 "method not allowed")

/-! ## Runs -/

/-- One handled request: which handler the router invoked, and on what. -/
inductive Call where
  | collection (r : Request)
  | item (r : Request)
deriving DecidableEq

/-- Handling one call. -/
def handle (api : API) : Call → API × Response
  | Call.collection r => tasksHandler api r
  | Call.item r => taskHandler api r

/-- Handling a sequence of calls one after another: the final store and the responses. -/
def run : API → List Call → API × List Response
  | api, [] => (api, [])
  | api, c :: cs =>
    ((run (handle api c).1 cs).1, (handle api c).2 :: (run (handle api c).1 cs).2)

/-- A store is reachable when some run from `NewAPI` ends in it. -/
def Reachable (api : API) : Prop := ∃ cs : List Call, (run NewAPI cs).1 = api

/-- The id carried by a 201 response, if the response is one. -/
def createdID (resp : Response) : Option Int :=
  if resp.status = 201 then
    match resp.data with
    | Data.task t => some t.ID
    | _ => none
  else none

/-- The ids returned by the successful creations among the responses, in order. -/
def createdIDs (rs : List Response) : List Int := rs.filterMap createdID

/-- The store invariant after `m` successful creations: `nextID` is `1 + m` as an `int`, a
stored `Task` carries its key as `ID`, and every key is the id of one of the `m` creations,
`1 + i` as an `int` for some `i < m`. -/
def Inv (api : API) (m : Nat) : Prop :=
  api.nextID = wrapInt (1 + (m : Int)) ∧
  ∀ k t, api.tasks.lookup k = some t →
    t.ID = k ∧ ∃ i : Nat, i < m ∧ k = wrapInt (1 + (i : Int))

/-- The values of the map, in the order of its entries. -/
def storedTasks (m : TaskMap) : List Task := m.entries.map Sigma.snd

/-- The request of a call. -/
def Call.request : Call → Request
  | Call.collection r => r
  | Call.item r => r

/-- The title a call creates a task with, when the call is a creation: a POST to the
collection whose body decodes. -/
def postedTitle : Call → Option String
  | Call.collection r => if r.Method = "POST" then r.Body.Title else none
  | Call.item _ => none

/-- The titles of the creations among the calls, in order. -/
def postedTitles (cs : List Call) : List String := cs.filterMap postedTitle

/-- The tasks that successive creations with the given titles produce when the counter
stands at `n`: ids `n, n+1, ...`, the titles in order, none completed. -/
def newTasks : Int → List String → List Task
  | _, [] => []
  | n, t :: ts => ⟨n, t, false⟩ :: newTasks (n + 1) ts

/-! ## Bodies as JSON documents -/

/-- The character of a decimal digit. -/
def digitChar (d : Nat) : Char := Char.ofNat (48 + d)

/-- The decimal digits of `n` put in front of `acc`, least significant digit first to be
put; `fuel` bounds the number of digits. -/
def natTextAux : Nat → Nat → List Char → List Char
  | 0, _, acc => acc
  | fuel + 1, n, acc =>
    if n < 10 then digitChar n :: acc
    else natTextAux fuel (n / 10) (digitChar (n % 10) :: acc)

/-- The decimal digits of a natural number, most significant first. -/
def natText (n : Nat) : List Char := natTextAux (n + 1) n []

/-- The function `strconv.Itoa`: the decimal text of an id. -/
def Itoa (k : Int) : List Char :=
  if k < 0 then '-' :: natText k.natAbs else natText k.toNat

/-- The path `/tasks/{id}` of the item with the given id. -/
def itemPath (k : Int) : String := String.mk ("/tasks/".data ++ Itoa k)

/-- The run that `n` times creates a task and deletes it again, begun when the counter
stands at `k`: `POST /tasks`, `DELETE /tasks/k`, `POST /tasks`, `DELETE /tasks/(k+1)`, and so
on, the ids being `int` values. -/
def churn : Nat → Int → List Call
  | 0, _ => []
  | n + 1, k =>
    Call.collection ⟨"POST", "/tasks", ⟨some "", none⟩⟩ ::
      Call.item ⟨"DELETE", itemPath k, ⟨none, none⟩⟩ :: churn n (wrapInt (k + 1))

/-! ## The critical sections of the item handler

`taskHandler` takes the lock twice: once around the lookup (`api.mu.Lock()` to
`api.mu.Unlock()` about `task, ok := api.tasks[id]`) and once more around the write of a PUT
or the removal of a DELETE.  Between the two, other requests can take the lock.  For
requests in flight at the same time a step is therefore one critical section together with
the lock-free code next to it, which touches only variables of its own goroutine. -/

/-- The first part of `taskHandler`, up to the `if !ok` after the first critical section:
either the error response that ends the request, or the id and the copy `task` of the
stored Task. -/
def taskHandlerCheck (api : API) (r : Request) : Except Response (Int × Task) :=
  match Atoi (TrimPrefix r.Path.data "/tasks/".data) with
  | none => Except.error (writeError 400 "invalid id")
  | some id =>
    match api.tasks.lookup id with
    | none => Except.error (writeError 404 "task not found")
    | some task => Except.ok (id, task)

/-- The second part of `taskHandler`, the `switch r.Method`, with `id` and `task` as the
first part left them and the store as it is when this part runs. -/
def taskHandlerAct (api : API) (r : Request) (id : Int) (task : Task) : API × Response :=
  if r.Method = "GET" then
    (api, writeJSON 200 (Data.task task))
  else if r.Method = "PUT" then
    match r.Body.Completed with
    | none => (api, writeError 400 "invalid json")
    | some completed =>
      let task : Task := { task with Completed := completed }
      ({ api with tasks := api.tasks.insert id task }, writeJSON 200 (Data.task task))
  else if r.Method = "DELETE" then
    ({ api with tasks := api.tasks.erase id }, writeJSON 200 (Data.object "status" "deleted"))
  else
    (api, writeError 405 "method not allowed")

/-- A goroutine running `taskHandler`: before its first critical section, between the two
(holding `id` and its copy of the task), or finished with its response written. -/
inductive Thread where
  | start (r : Request)
  | checked (r : Request) (id : Int) (task : Task)
  | done (resp : Response)
deriving DecidableEq

/-- One step of a goroutine on the shared store. -/
def Thread.step (api : API) : Thread → API × Thread
  | Thread.start r =>
    match taskHandlerCheck api r with
    | Except.error resp => (api, Thread.done resp)
    | Except.ok (id, task) => (api, Thread.checked r id task)
  | Thread.checked r id task =>
    ((taskHandlerAct api r id task).1, Thread.done (taskHandlerAct api r id task).2)
  | Thread.done resp => (api, Thread.done resp)

/-- Running goroutines under a schedule: each entry names the goroutine that takes the next
step (an entry that names none is skipped). -/
def exec : API → List Thread → List Nat → API × List Thread
  | api, ts, [] => (api, ts)
  | api, ts, i :: sched =>
    match ts[i]? with
    | none => exec api ts sched
    | some t => exec (t.step api).1 (ts.set i (t.step api).2) sched

/-! ## Arithmetic of `int` -/

theorem wrapInt_of_range (x : Int) (h₁ : -2 ^ 63 ≤ x) (h₂ : x < 2 ^ 63) : wrapInt x = x := by
  unfold wrapInt; omega

theorem wrapInt_range (x : Int) : -2 ^ 63 ≤ wrapInt x ∧ wrapInt x < 2 ^ 63 := by
  unfold wrapInt; omega

theorem wrapInt_succ (x : Int) : wrapInt (wrapInt x + 1) = wrapInt (x + 1) := by
  unfold wrapInt; omega

theorem wrapInt_add (x y : Int) : wrapInt (wrapInt x + y) = wrapInt (x + y) := by
  unfold wrapInt; omega

/-- Two `int` values `1 + i` and `1 + m` with `i < m < 2^64` are different. -/
theorem wrapInt_ne (i m : Nat) (h₁ : i < m) (h₂ : m < 2 ^ 64) :
    wrapInt (1 + (m : Int)) ≠ wrapInt (1 + (i : Int)) := by
  unfold wrapInt; omega

/-! ## The branches of the handlers -/

theorem foldl_append (es : List (Sigma fun _ : Int => Task)) : ∀ l : List Task,
    es.foldl (fun list e => append list e.2) (some l) = some (l ++ es.map Sigma.snd) := by
  induction es with
  | nil => intro l; simp
  | cons e es ih =>
    intro l
    have h : append (some l) e.2 = some (l ++ [e.2]) := rfl
    rw [List.foldl_cons, h, ih, List.map_cons, List.append_assoc]
    rfl

/-- The slice built for `GET /tasks` is not nil and holds the values of the map entries. -/
theorem listTasks_eq (m : TaskMap) : listTasks m = some (storedTasks m) := by
  simp [listTasks, AList.foldl, make, foldl_append, storedTasks]

theorem tasksHandler_get (api : API) (r : Request) (hm : r.Method = "GET") :
    tasksHandler api r = (api, writeJSON 200 (Data.tasks (storedTasks api.tasks))) := by
  simp [tasksHandler, hm, listTasks_eq, Data.ofSlice]

theorem tasksHandler_post (api : API) (r : Request) (title : String) (hm : r.Method = "POST")
    (hb : r.Body.Title = some title) :
    tasksHandler api r =
      ({ tasks := api.tasks.insert api.nextID ⟨api.nextID, title, false⟩,
         nextID := wrapInt (api.nextID + 1) },
        writeJSON 201 (Data.task ⟨api.nextID, title, false⟩)) := by
  simp [tasksHandler, hm, hb]

theorem tasksHandler_post_invalid (api : API) (r : Request) (hm : r.Method = "POST")
    (hb : r.Body.Title = none) :
    tasksHandler api r = (api, writeError 400 "invalid json") := by
  simp [tasksHandler, hm, hb]

theorem tasksHandler_other (api : API) (r : Request) (hg : r.Method ≠ "GET")
    (hp : r.Method ≠ "POST") :
    tasksHandler api r = (api, writeError 405 "method not allowed") := by
  simp [tasksHandler, hg, hp]

theorem taskHandler_invalid_id (api : API) (r : Request)
    (hid : Atoi (TrimPrefix r.Path.data "/tasks/".data) = none) :
    taskHandler api r = (api, writeError 400 "invalid id") := by
  simp [taskHandler, hid]

theorem taskHandler_absent (api : API) (r : Request) (id : Int)
    (hid : Atoi (TrimPrefix r.Path.data "/tasks/".data) = some id)
    (hl : api.tasks.lookup id = none) :
    taskHandler api r = (api, writeError 404 "task not found") := by
  simp [taskHandler, hid, hl]

theorem taskHandler_get (api : API) (r : Request) (id : Int) (task : Task)
    (hid : Atoi (TrimPrefix r.Path.data "/tasks/".data) = some id)
    (hl : api.tasks.lookup id = some task) (hm : r.Method = "GET") :
    taskHandler api r = (api, writeJSON 200 (Data.task task)) := by
  simp [taskHandler, hid, hl, hm]

theorem taskHandler_put (api : API) (r : Request) (id : Int) (task : Task) (b : Bool)
    (hid : Atoi (TrimPrefix r.Path.data "/tasks/".data) = some id)
    (hl : api.tasks.lookup id = some task) (hm : r.Method = "PUT")
    (hb : r.Body.Completed = some b) :
    taskHandler api r =
      ({ api with tasks := api.tasks.insert id { task with Completed := b } },
        writeJSON 200 (Data.task { task with Completed := b })) := by
  simp [taskHandler, hid, hl, hm, hb]

theorem taskHandler_put_invalid (api : API) (r : Request) (id : Int) (task : Task)
    (hid : Atoi (TrimPrefix r.Path.data "/tasks/".data) = some id)
    (hl : api.tasks.lookup id = some task) (hm : r.Method = "PUT")
    (hb : r.Body.Completed = none) :
    taskHandler api r = (api, writeError 400 "invalid json") := by
  simp [taskHandler, hid, hl, hm, hb]

theorem taskHandler_delete (api : API) (r : Request) (id : Int) (task : Task)
    (hid : Atoi (TrimPrefix r.Path.data "/tasks/".data) = some id)
    (hl : api.tasks.lookup id = some task) (hm : r.Method = "DELETE") :
    taskHandler api r =
      ({ api with tasks := api.tasks.erase id },
        writeJSON 200 (Data.object "status" "deleted")) := by
  have h1 : ("DELETE" : String) ≠ "GET" := by decide
  have h2 : ("DELETE" : String) ≠ "PUT" := by decide
  simp [taskHandler, hid, hl, hm, h1, h2]

theorem taskHandler_other (api : API) (r : Request) (id : Int) (task : Task)
    (hid : Atoi (TrimPrefix r.Path.data "/tasks/".data) = some id)
    (hl : api.tasks.lookup id = some task) (hg : r.Method ≠ "GET") (hp : r.Method ≠ "PUT")
    (hd : r.Method ≠ "DELETE") :
    taskHandler api r = (api, writeError 405 "method not allowed") := by
  simp [taskHandler, hid, hl, hg, hp, hd]

/-- Every handled call is of one of four kinds: it leaves the store alone (and is no
creation: it does not answer 201), it creates a task under `nextID`, it overwrites `Completed` of a stored task, or
it removes a stored task. -/
theorem handle_cases (api : API) (c : Call) :
    ((handle api c).1 = api ∧ createdID (handle api c).2 = none ∧
      (handle api c).2.status ≠ 201) ∨
    (∃ title, handle api c =
      (⟨api.tasks.insert api.nextID ⟨api.nextID, title, false⟩, wrapInt (api.nextID + 1)⟩,
        writeJSON 201 (Data.task ⟨api.nextID, title, false⟩))) ∨
    (∃ id task b, api.tasks.lookup id = some task ∧ handle api c =
      (⟨api.tasks.insert id { task with Completed := b }, api.nextID⟩,
        writeJSON 200 (Data.task { task with Completed := b }))) ∨
    (∃ id task, api.tasks.lookup id = some task ∧ handle api c =
      (⟨api.tasks.erase id, api.nextID⟩, writeJSON 200 (Data.object "status" "deleted"))) := by
  cases c with
  | collection r =>
    simp only [handle]
    by_cases hg : r.Method = "GET"
    · left; rw [tasksHandler_get api r hg]; simp [createdID, writeJSON]
    · by_cases hp : r.Method = "POST"
      · cases hb : r.Body.Title with
        | none =>
          left; rw [tasksHandler_post_invalid api r hp hb]
          simp [createdID, writeJSON, writeError]
        | some title =>
          right; left
          exact ⟨title, tasksHandler_post api r title hp hb⟩
      · left; rw [tasksHandler_other api r hg hp]; simp [createdID, writeJSON, writeError]
  | item r =>
    simp only [handle]
    cases hid : Atoi (TrimPrefix r.Path.data "/tasks/".data) with
    | none =>
      left; rw [taskHandler_invalid_id api r hid]; simp [createdID, writeJSON, writeError]
    | some id =>
      cases hl : api.tasks.lookup id with
      | none =>
        left; rw [taskHandler_absent api r id hid hl]
        simp [createdID, writeJSON, writeError]
      | some task =>
        by_cases hg : r.Method = "GET"
        · left; rw [taskHandler_get api r id task hid hl hg]; simp [createdID, writeJSON]
        · by_cases hp : r.Method = "PUT"
          · cases hb : r.Body.Completed with
            | none =>
              left; rw [taskHandler_put_invalid api r id task hid hl hp hb]
              simp [createdID, writeJSON, writeError]
            | some b =>
              right; right; left
              exact ⟨id, task, b, hl, taskHandler_put api r id task b hid hl hp hb⟩
          · by_cases hd : r.Method = "DELETE"
            · right; right; right
              exact ⟨id, task, hl, taskHandler_delete api r id task hid hl hd⟩
            · left; rw [taskHandler_other api r id task hid hl hg hp hd]
              simp [createdID, writeJSON, writeError]

theorem Inv_NewAPI : Inv NewAPI 0 := by
  refine ⟨by decide, ?_⟩
  intro k t h
  simp [NewAPI] at h

/-- One step of a run keeps the invariant: either it is no creation and the number of
creations stays, or it returns the old `nextID` and the number goes up by one. -/
theorem Inv_handle (api : API) (c : Call) (m : Nat) (h : Inv api m) :
    (createdID (handle api c).2 = none ∧ Inv (handle api c).1 m) ∨
    (createdID (handle api c).2 = some api.nextID ∧ Inv (handle api c).1 (m + 1)) := by
  obtain ⟨hn, h⟩ := h
  rcases handle_cases api c with
    ⟨h1, h2, _⟩ | ⟨title, h1⟩ | ⟨id, task, b, hl, h1⟩ | ⟨id, task, hl, h1⟩
  · left; rw [h1]; exact ⟨h2, hn, h⟩
  · right
    rw [h1]
    refine ⟨by simp [createdID, writeJSON], ?_, ?_⟩
    · have e : (1 + (m : Int) + 1) = 1 + ((m + 1 : Nat) : Int) := by push_cast; ring
      simp only [hn, wrapInt_succ, e]
    · intro k t hk
      by_cases hkn : k = api.nextID
      · subst hkn
        simp only [AList.lookup_insert, Option.some.injEq] at hk
        subst hk
        exact ⟨rfl, m, Nat.lt_succ_self m, hn⟩
      · simp only [AList.lookup_insert_ne hkn] at hk
        obtain ⟨a, i, hi, e⟩ := h k t hk
        exact ⟨a, i, Nat.lt_succ_of_lt hi, e⟩
  · left
    rw [h1]
    refine ⟨by simp [createdID, writeJSON], hn, ?_⟩
    intro k t hk
    by_cases hkn : k = id
    · subst hkn
      simp only [AList.lookup_insert, Option.some.injEq] at hk
      subst hk
      exact h k task hl
    · simp only [AList.lookup_insert_ne hkn] at hk
      exact h k t hk
  · left
    rw [h1]
    refine ⟨by simp [createdID, writeJSON], hn, ?_⟩
    intro k t hk
    by_cases hkn : k = id
    · subst hkn
      simp [AList.lookup_erase] at hk
    · simp only [AList.lookup_erase_ne hkn] at hk
      exact h k t hk

theorem range_succ_map_wrap (m N : Nat) (a : Int)
    (ha : a = wrapInt (1 + ((m + 0 : Nat) : Int))) :
    a :: (List.range N).map (fun j : Nat => wrapInt (1 + ((m + 1 + j : Nat) : Int))) =
      (List.range (N + 1)).map (fun j : Nat => wrapInt (1 + ((m + j : Nat) : Int))) := by
  rw [List.range_succ_eq_map, List.map_cons, List.map_map]
  refine List.cons_eq_cons.2 ⟨ha, ?_⟩
  apply List.map_congr_left
  intro j _
  rw [Function.comp_apply, show m + 1 + j = m + Nat.succ j from by omega]

/-- Along a run the invariant is kept, with the number of creations going up by some `N`,
and the ids returned are `1 + m`, `1 + (m + 1)`, ..., `N` of them, as `int` values. -/
theorem Inv_run_exists (cs : List Call) : ∀ (api : API) (m : Nat), Inv api m →
    ∃ N : Nat, Inv (run api cs).1 (m + N) ∧
      createdIDs (run api cs).2 =
        (List.range N).map (fun j : Nat => wrapInt (1 + ((m + j : Nat) : Int))) := by
  induction cs with
  | nil => intro api m h; exact ⟨0, h, rfl⟩
  | cons c cs ih =>
    intro api m h
    have e1 : (run api (c :: cs)).1 = (run (handle api c).1 cs).1 := rfl
    rcases Inv_handle api c m h with ⟨h1, h2⟩ | ⟨h1, h2⟩
    · have e : createdIDs (run api (c :: cs)).2 = createdIDs (run (handle api c).1 cs).2 := by
        simp [run, createdIDs, List.filterMap_cons, h1]
      rw [e, e1]
      exact ih _ m h2
    · have e : createdIDs (run api (c :: cs)).2 =
          api.nextID :: createdIDs (run (handle api c).1 cs).2 := by
        simp [run, createdIDs, List.filterMap_cons, h1]
      obtain ⟨N, ih1, ih2⟩ := ih _ (m + 1) h2
      refine ⟨N + 1, ?_, ?_⟩
      · rw [e1, show m + (N + 1) = m + 1 + N from by omega]
        exact ih1
      · rw [e, ih2]
        exact range_succ_map_wrap m N api.nextID (by rw [h.1, Nat.add_zero])

/-- The same with the number of 201 responses of the run for `N`. -/
theorem Inv_run (cs : List Call) (api : API) (m : Nat) (h : Inv api m) :
    Inv (run api cs).1 (m + (createdIDs (run api cs).2).length) ∧
    createdIDs (run api cs).2 =
      (List.range (createdIDs (run api cs).2).length).map
        (fun j : Nat => wrapInt (1 + ((m + j : Nat) : Int))) := by
  obtain ⟨N, h1, h2⟩ := Inv_run_exists cs api m h
  have hlen : (createdIDs (run api cs).2).length = N := by
    rw [h2, List.length_map, List.length_range]
  rw [hlen]
  exact ⟨h1, h2⟩

theorem Inv_of_Reachable (api : API) (h : Reachable api) : ∃ m : Nat, Inv api m := by
  obtain ⟨cs, rfl⟩ := h
  exact ⟨_, (Inv_run cs NewAPI 0 Inv_NewAPI).1⟩

/-- The ids created along a run from `NewAPI` are `1, 2, 3, ...` as `int` values. -/
theorem createdIDs_NewAPI (cs : List Call) :
    createdIDs (run NewAPI cs).2 =
      (List.range (createdIDs (run NewAPI cs).2).length).map
        (fun j : Nat => wrapInt (1 + (j : Int))) := by
  have h := (Inv_run cs NewAPI 0 Inv_NewAPI).2
  simp only [Nat.zero_add] at h
  exact h

/-- A 201 response carries the Task created under the old `nextID`. -/
theorem handle_201 (api : API) (c : Call) (h : (handle api c).2.status = 201) :
    ∃ title, (handle api c).2 = writeJSON 201 (Data.task ⟨api.nextID, title, false⟩) := by
  rcases handle_cases api c with
    ⟨_, _, h3⟩ | ⟨title, h1⟩ | ⟨id, task, b, hl, h1⟩ | ⟨id, task, hl, h1⟩
  · exact absurd h h3
  · exact ⟨title, by rw [h1]⟩
  · rw [h1] at h; simp [writeJSON] at h
  · rw [h1] at h; simp [writeJSON] at h

theorem run_201 (cs : List Call) : ∀ api : API,
    ∀ resp ∈ (run api cs).2, resp.status = 201 → ∃ t, resp.data = Data.task t := by
  induction cs with
  | nil => intro api resp h; simp [run] at h
  | cons c cs ih =>
    intro api resp h hs
    simp only [run, List.mem_cons] at h
    rcases h with rfl | h
    · obtain ⟨title, e⟩ := handle_201 api c hs
      exact ⟨_, by rw [e]; rfl⟩
    · exact ih _ resp h hs

/-! ## Creation ids and the store invariant -/

/-- C1, amended: starting from the store built by `NewAPI`, for every sequence of calls in
which fewer than `2^63` creations succeed, the ids returned by the 201 responses are, in
order, 1, 2, 3, ...: the k-th successful creation returns id k, the returned ids are
strictly increasing, and every 201 response carries a Task. -/
theorem created_ids_count_up (cs : List Call)
    (hN : (createdIDs (run NewAPI cs).2).length < 2 ^ 63) :
    createdIDs (run NewAPI cs).2 =
      (List.range (createdIDs (run NewAPI cs).2).length).map (fun k : Nat => (k : Int) + 1) ∧
    (createdIDs (run NewAPI cs).2).Pairwise (· < ·) ∧
    (∀ resp ∈ (run NewAPI cs).2, resp.status = 201 → ∃ t, resp.data = Data.task t) := by
  have e : createdIDs (run NewAPI cs).2 =
      (List.range (createdIDs (run NewAPI cs).2).length).map (fun k : Nat => (k : Int) + 1) := by
    conv_lhs => rw [createdIDs_NewAPI cs]
    apply List.map_congr_left
    intro k hk
    have hk' : k < (createdIDs (run NewAPI cs).2).length := List.mem_range.1 hk
    rw [wrapInt_of_range] <;> omega
  refine ⟨e, ?_, run_201 cs NewAPI⟩
  rw [e, List.pairwise_map]
  refine (List.pairwise_lt_range _).imp ?_
  intro a b hab
  have : (a : Int) < (b : Int) := by exact_mod_cast hab
  omega

theorem created_ids_count_up_witness :
    createdIDs (run NewAPI [Call.collection ⟨"POST", "/tasks", ⟨some "a", none⟩⟩,
        Call.item ⟨"DELETE", "/tasks/1", ⟨none, none⟩⟩,
        Call.collection ⟨"POST", "/tasks", ⟨some "b", none⟩⟩]).2 = [1, 2] := by
  have h := (created_ids_count_up [Call.collection ⟨"POST", "/tasks", ⟨some "a", none⟩⟩,
    Call.item ⟨"DELETE", "/tasks/1", ⟨none, none⟩⟩,
    Call.collection ⟨"POST", "/tasks", ⟨some "b", none⟩⟩] (by decide)).1
  rw [h]
  decide

/-- C2, amended: in every store reached from `NewAPI` by a sequence of handled calls, a
stored `Task` has its map key as `ID` and two entries with the same `ID` are the same entry;
and as long as fewer than `2^63 - 1` creations have succeeded, every key `k` has
`1 ≤ k < nextID` and every id issued so far is positive and below `nextID`. -/
theorem reachable_store_invariant (cs : List Call) :
    (∀ k t, (run NewAPI cs).1.tasks.lookup k = some t → t.ID = k) ∧
    (∀ k₁ k₂ t₁ t₂, (run NewAPI cs).1.tasks.lookup k₁ = some t₁ →
      (run NewAPI cs).1.tasks.lookup k₂ = some t₂ → t₁.ID = t₂.ID → k₁ = k₂) ∧
    ((createdIDs (run NewAPI cs).2).length < 2 ^ 63 - 1 →
      (∀ k t, (run NewAPI cs).1.tasks.lookup k = some t →
        1 ≤ k ∧ k < (run NewAPI cs).1.nextID) ∧
      (∀ i ∈ createdIDs (run NewAPI cs).2, 1 ≤ i ∧ i < (run NewAPI cs).1.nextID)) := by
  obtain ⟨⟨hn, hinv⟩, hids⟩ := Inv_run cs NewAPI 0 Inv_NewAPI
  simp only [Nat.zero_add] at hn hinv hids
  refine ⟨fun k t h => (hinv k t h).1, ?_, ?_⟩
  · intro k₁ k₂ t₁ t₂ h₁ h₂ e
    rw [← (hinv k₁ t₁ h₁).1, ← (hinv k₂ t₂ h₂).1]
    exact e
  · intro hN
    have hnext : (run NewAPI cs).1.nextID =
        1 + ((createdIDs (run NewAPI cs).2).length : Int) := by
      rw [hn, wrapInt_of_range] <;> omega
    constructor
    · intro k t h
      obtain ⟨_, i, hi, e⟩ := hinv k t h
      rw [hnext, e, wrapInt_of_range] <;> omega
    · intro i hi
      rw [hids] at hi
      simp only [List.mem_map, List.mem_range] at hi
      obtain ⟨j, hj, rfl⟩ := hi
      rw [hnext, wrapInt_of_range] <;> omega

theorem reachable_store_invariant_witness :
    (run NewAPI [Call.collection ⟨"POST", "/tasks", ⟨some "a", none⟩⟩,
        Call.collection ⟨"POST", "/tasks", ⟨some "b", none⟩⟩]).1.tasks.lookup 2 =
      some ⟨2, "b", false⟩ ∧
    (1 : Int) ≤ 2 ∧
    (2 : Int) < (run NewAPI [Call.collection ⟨"POST", "/tasks", ⟨some "a", none⟩⟩,
        Call.collection ⟨"POST", "/tasks", ⟨some "b", none⟩⟩]).1.nextID :=
  ⟨by decide,
    ((reachable_store_invariant [Call.collection ⟨"POST", "/tasks", ⟨some "a", none⟩⟩,
      Call.collection ⟨"POST", "/tasks", ⟨some "b", none⟩⟩]).2.2 (by decide)).1
      2 ⟨2, "b", false⟩ (by decide)⟩

/-! ## Create, update, delete on one task -/

/-- C3: for every title `X` (the empty one included) and every store, a POST to the
collection whose body decodes to title `X` answers 201 with `Task{nextID, X, false}`, where
`nextID` is the counter before the call; that Task is what the store then holds under that
key; and a GET of that id right after answers 200 with exactly that Task. -/
theorem create_then_get (api : API) (X : String) (rp rg : Request)
    (hpm : rp.Method = "POST") (hpb : rp.Body.Title = some X)
    (hgm : rg.Method = "GET")
    (hgp : Atoi (TrimPrefix rg.Path.data "/tasks/".data) = some api.nextID) :
    (tasksHandler api rp).2 = writeJSON 201 (Data.task ⟨api.nextID, X, false⟩) ∧
    (tasksHandler api rp).1.tasks.lookup api.nextID = some ⟨api.nextID, X, false⟩ ∧
    taskHandler (tasksHandler api rp).1 rg =
      ((tasksHandler api rp).1, writeJSON 200 (Data.task ⟨api.nextID, X, false⟩)) := by
  have hl : (tasksHandler api rp).1.tasks.lookup api.nextID = some ⟨api.nextID, X, false⟩ := by
    rw [tasksHandler_post api rp X hpm hpb]
    exact AList.lookup_insert _
  refine ⟨by rw [tasksHandler_post api rp X hpm hpb], hl, ?_⟩
  exact taskHandler_get _ rg api.nextID _ hgp hl hgm

theorem create_then_get_witness :
    (tasksHandler NewAPI ⟨"POST", "/tasks", ⟨some "buy milk", none⟩⟩).2 =
      writeJSON 201 (Data.task ⟨1, "buy milk", false⟩) ∧
    (tasksHandler NewAPI ⟨"POST", "/tasks", ⟨some "buy milk", none⟩⟩).1.tasks.lookup 1 =
      some ⟨1, "buy milk", false⟩ ∧
    taskHandler (tasksHandler NewAPI ⟨"POST", "/tasks", ⟨some "buy milk", none⟩⟩).1
        ⟨"GET", "/tasks/1", ⟨none, none⟩⟩ =
      ((tasksHandler NewAPI ⟨"POST", "/tasks", ⟨some "buy milk", none⟩⟩).1,
        writeJSON 200 (Data.task ⟨1, "buy milk", false⟩)) :=
  create_then_get NewAPI "buy milk" ⟨"POST", "/tasks", ⟨some "buy milk", none⟩⟩
    ⟨"GET", "/tasks/1", ⟨none, none⟩⟩ rfl rfl rfl (by decide)

/-- C4: for every store that holds `Task{id, t, c}` under `id` and every boolean `b`, a PUT
on that id whose body decodes to `completed = b` answers 200 with `Task{id, t, b}`; the store
then maps `id` to `Task{id, t, b}`, every other key is bound as before, `nextID` is as
before, and a GET of the id afterwards answers 200 with `Task{id, t, b}`. -/
theorem put_sets_completed_only (api : API) (id : Int) (t : String) (c b : Bool)
    (rp rg : Request) (hl : api.tasks.lookup id = some ⟨id, t, c⟩)
    (hpm : rp.Method = "PUT")
    (hpp : Atoi (TrimPrefix rp.Path.data "/tasks/".data) = some id)
    (hpb : rp.Body.Completed = some b)
    (hgm : rg.Method = "GET")
    (hgp : Atoi (TrimPrefix rg.Path.data "/tasks/".data) = some id) :
    (taskHandler api rp).2 = writeJSON 200 (Data.task ⟨id, t, b⟩) ∧
    (taskHandler api rp).1.tasks.lookup id = some ⟨id, t, b⟩ ∧
    (∀ k, k ≠ id → (taskHandler api rp).1.tasks.lookup k = api.tasks.lookup k) ∧
    (taskHandler api rp).1.nextID = api.nextID ∧
    taskHandler (taskHandler api rp).1 rg =
      ((taskHandler api rp).1, writeJSON 200 (Data.task ⟨id, t, b⟩)) := by
  have e := taskHandler_put api rp id ⟨id, t, c⟩ b hpp hl hpm hpb
  have hl2 : (taskHandler api rp).1.tasks.lookup id = some ⟨id, t, b⟩ := by
    rw [e]
    exact AList.lookup_insert _
  refine ⟨by rw [e], hl2, ?_, by rw [e], ?_⟩
  · intro k hk
    rw [e]
    exact AList.lookup_insert_ne hk
  · exact taskHandler_get _ rg id _ hgp hl2 hgm

theorem put_sets_completed_only_witness :
    (taskHandler ⟨AList.singleton 1 ⟨1, "buy milk", false⟩, 2⟩
        ⟨"PUT", "/tasks/1", ⟨none, some true⟩⟩).2 =
      writeJSON 200 (Data.task ⟨1, "buy milk", true⟩) ∧
    (taskHandler ⟨AList.singleton 1 ⟨1, "buy milk", false⟩, 2⟩
        ⟨"PUT", "/tasks/1", ⟨none, some true⟩⟩).1.tasks.lookup 1 =
      some ⟨1, "buy milk", true⟩ ∧
    (∀ k, k ≠ 1 →
      (taskHandler ⟨AList.singleton 1 ⟨1, "buy milk", false⟩, 2⟩
        ⟨"PUT", "/tasks/1", ⟨none, some true⟩⟩).1.tasks.lookup k =
      (API.mk (AList.singleton 1 ⟨1, "buy milk", false⟩) 2).tasks.lookup k) ∧
    (taskHandler ⟨AList.singleton 1 ⟨1, "buy milk", false⟩, 2⟩
        ⟨"PUT", "/tasks/1", ⟨none, some true⟩⟩).1.nextID = 2 ∧
    taskHandler
        (taskHandler ⟨AList.singleton 1 ⟨1, "buy milk", false⟩, 2⟩
          ⟨"PUT", "/tasks/1", ⟨none, some true⟩⟩).1
        ⟨"GET", "/tasks/1", ⟨none, none⟩⟩ =
      ((taskHandler ⟨AList.singleton 1 ⟨1, "buy milk", false⟩, 2⟩
          ⟨"PUT", "/tasks/1", ⟨none, some true⟩⟩).1,
        writeJSON 200 (Data.task ⟨1, "buy milk", true⟩)) :=
  put_sets_completed_only ⟨AList.singleton 1 ⟨1, "buy milk", false⟩, 2⟩ 1 "buy milk" false true
    ⟨"PUT", "/tasks/1", ⟨none, some true⟩⟩ ⟨"GET", "/tasks/1", ⟨none, none⟩⟩
    (by decide) rfl (by decide) rfl rfl (by decide)

/-- C5: for every store and every id bound in it, DELETE of that id answers 200 with
`{"status":"deleted"}`; a request `rg` for the id right after (a GET, or any other method)
answers 404 with `{"error":"task not found"}`, and so does a second request `rd₂` for the id
right after (a second DELETE, or any other method). -/
theorem delete_then_not_found (api : API) (id : Int) (task : Task) (rd rg rd₂ : Request)
    (hl : api.tasks.lookup id = some task)
    (hdm : rd.Method = "DELETE")
    (hdp : Atoi (TrimPrefix rd.Path.data "/tasks/".data) = some id)
    (hgp : Atoi (TrimPrefix rg.Path.data "/tasks/".data) = some id)
    (hdp₂ : Atoi (TrimPrefix rd₂.Path.data "/tasks/".data) = some id) :
    (taskHandler api rd).2 = writeJSON 200 (Data.object "status" "deleted") ∧
    (taskHandler (taskHandler api rd).1 rg).2 = writeError 404 "task not found" ∧
    (taskHandler (taskHandler api rd).1 rd₂).2 = writeError 404 "task not found" := by
  have e := taskHandler_delete api rd id task hdp hl hdm
  have hl2 : (taskHandler api rd).1.tasks.lookup id = none := by
    rw [e]
    exact AList.lookup_erase id _
  refine ⟨by rw [e], ?_, ?_⟩
  · rw [taskHandler_absent _ rg id hgp hl2]
  · rw [taskHandler_absent _ rd₂ id hdp₂ hl2]

theorem delete_then_not_found_witness :
    (taskHandler ⟨AList.singleton 1 ⟨1, "buy milk", true⟩, 2⟩
        ⟨"DELETE", "/tasks/1", ⟨none, none⟩⟩).2 =
      writeJSON 200 (Data.object "status" "deleted") ∧
    (taskHandler
        (taskHandler ⟨AList.singleton 1 ⟨1, "buy milk", true⟩, 2⟩
          ⟨"DELETE", "/tasks/1", ⟨none, none⟩⟩).1
        ⟨"GET", "/tasks/1", ⟨none, none⟩⟩).2 = writeError 404 "task not found" ∧
    (taskHandler
        (taskHandler ⟨AList.singleton 1 ⟨1, "buy milk", true⟩, 2⟩
          ⟨"DELETE", "/tasks/1", ⟨none, none⟩⟩).1
        ⟨"DELETE", "/tasks/1", ⟨none, none⟩⟩).2 = writeError 404 "task not found" :=
  delete_then_not_found ⟨AList.singleton 1 ⟨1, "buy milk", true⟩, 2⟩ 1 ⟨1, "buy milk", true⟩
    ⟨"DELETE", "/tasks/1", ⟨none, none⟩⟩ ⟨"GET", "/tasks/1", ⟨none, none⟩⟩
    ⟨"DELETE", "/tasks/1", ⟨none, none⟩⟩ (by decide) rfl (by decide) (by decide) (by decide)

/-! ## Deleted ids stay deleted -/

/-- An id issued by the i-th creation and absent from the store stays absent, and is not
issued again, along every run that brings the number of creations to at most `2^64`. -/
theorem absent_run (id : Int) (i : Nat) (hid : id = wrapInt (1 + (i : Int)))
    (cs : List Call) : ∀ (api : API) (m : Nat), api.nextID = wrapInt (1 + (m : Int)) →
    i < m → api.tasks.lookup id = none →
    m + (createdIDs (run api cs).2).length ≤ 2 ^ 64 →
    (run api cs).1.tasks.lookup id = none ∧ id ∉ createdIDs (run api cs).2 := by
  induction cs with
  | nil => intro api m _ _ hl _; exact ⟨hl, by simp [run, createdIDs]⟩
  | cons c cs ih =>
    intro api m hn hi hl hN
    have e1 : (run api (c :: cs)).1 = (run (handle api c).1 cs).1 := rfl
    have e2 : createdIDs (run api (c :: cs)).2 =
        (createdID (handle api c).2).toList ++ createdIDs (run (handle api c).1 cs).2 := by
      simp only [run, createdIDs, List.filterMap_cons]
      cases createdID (handle api c).2 <;> rfl
    rw [e1, e2]
    rw [e2] at hN
    rcases handle_cases api c with
      ⟨h1, h2, _⟩ | ⟨title, h1⟩ | ⟨k, task, b, hk, h1⟩ | ⟨k, task, hk, h1⟩
    · rw [h2] at hN ⊢
      rw [h1] at hN ⊢
      exact ih api m hn hi hl hN
    · have hc : createdID (handle api c).2 = some api.nextID := by
        rw [h1]; simp [createdID, writeJSON]
      rw [hc] at hN ⊢
      simp only [Option.toList, List.length_append, List.length_cons, List.length_nil] at hN
      have hm : m < 2 ^ 64 := by omega
      have hne : id ≠ api.nextID := by
        rw [hid, hn]; exact (wrapInt_ne i m hi hm).symm
      have hn' : (handle api c).1.nextID = wrapInt (1 + ((m + 1 : Nat) : Int)) := by
        rw [h1]
        have e : (1 + (m : Int) + 1) = 1 + ((m + 1 : Nat) : Int) := by push_cast; ring
        simp only [hn, wrapInt_succ, e]
      have hl' : (handle api c).1.tasks.lookup id = none := by
        rw [h1]; simp only [AList.lookup_insert_ne hne, hl]
      obtain ⟨r1, r2⟩ := ih (handle api c).1 (m + 1) hn' (Nat.lt_succ_of_lt hi) hl'
        (by omega)
      refine ⟨r1, ?_⟩
      simp only [Option.toList, List.singleton_append, List.mem_cons, not_or]
      exact ⟨hne, r2⟩
    · have hc : createdID (handle api c).2 = none := by
        rw [h1]; simp [createdID, writeJSON]
      rw [hc] at hN ⊢
      have hne : id ≠ k := by
        rintro rfl
        rw [hl] at hk
        exact Option.noConfusion hk
      have hl' : (handle api c).1.tasks.lookup id = none := by
        rw [h1]; simp only [AList.lookup_insert_ne hne, hl]
      exact ih (handle api c).1 m (by rw [h1]; exact hn) hi hl' hN
    · have hc : createdID (handle api c).2 = none := by
        rw [h1]; simp [createdID, writeJSON]
      rw [hc] at hN ⊢
      have hl' : (handle api c).1.tasks.lookup id = none := by
        rw [h1]
        by_cases hne : id = k
        · subst hne; exact AList.lookup_erase id _
        · simp only [AList.lookup_erase_ne hne, hl]
      exact ih (handle api c).1 m (by rw [h1]; exact hn) hi hl' hN

/-- C6, amended: a deleted id does not come back as long as at most `2^64` creations succeed
in the whole run.  Once a DELETE of `id` has answered 200 in a run from `NewAPI`, then after
every further sequence of calls that keeps the number of successful creations of the whole
run at or below `2^64`, `id` is not a key of the store, no creation among those calls
returned `id`, and every request for `id` (GET, PUT, DELETE or other) answers 404 with
`{"error":"task not found"}` and leaves the store as it is. -/
theorem deleted_id_stays_deleted (cs₁ cs₂ : List Call) (rd : Request) (id : Int)
    (hdm : rd.Method = "DELETE")
    (hdp : Atoi (TrimPrefix rd.Path.data "/tasks/".data) = some id)
    (hok : (taskHandler (run NewAPI cs₁).1 rd).2.status = 200)
    (hN : (createdIDs (run NewAPI cs₁).2).length +
      (createdIDs (run (taskHandler (run NewAPI cs₁).1 rd).1 cs₂).2).length ≤ 2 ^ 64) :
    (run (taskHandler (run NewAPI cs₁).1 rd).1 cs₂).1.tasks.lookup id = none ∧
    id ∉ createdIDs (run (taskHandler (run NewAPI cs₁).1 rd).1 cs₂).2 ∧
    ∀ r : Request, Atoi (TrimPrefix r.Path.data "/tasks/".data) = some id →
      taskHandler (run (taskHandler (run NewAPI cs₁).1 rd).1 cs₂).1 r =
        ((run (taskHandler (run NewAPI cs₁).1 rd).1 cs₂).1,
          writeError 404 "task not found") := by
  obtain ⟨hn, hinv⟩ := (Inv_run cs₁ NewAPI 0 Inv_NewAPI).1
  simp only [Nat.zero_add] at hn hinv
  cases hl : (run NewAPI cs₁).1.tasks.lookup id with
  | none =>
    rw [taskHandler_absent _ rd id hdp hl] at hok
    simp [writeError, writeJSON] at hok
  | some task =>
    have e := taskHandler_delete _ rd id task hdp hl hdm
    obtain ⟨_, i, hi, hid⟩ := hinv id task hl
    have hn2 : (taskHandler (run NewAPI cs₁).1 rd).1.nextID =
        wrapInt (1 + ((createdIDs (run NewAPI cs₁).2).length : Int)) := by
      rw [e]; exact hn
    have hl2 : (taskHandler (run NewAPI cs₁).1 rd).1.tasks.lookup id = none := by
      rw [e]; exact AList.lookup_erase id _
    obtain ⟨h1, h2⟩ := absent_run id i hid cs₂ _ _ hn2 hi hl2 hN
    exact ⟨h1, h2, fun r hr => taskHandler_absent _ r id hr h1⟩

theorem deleted_id_stays_deleted_witness :
    (run (taskHandler (run NewAPI [Call.collection ⟨"POST", "/tasks", ⟨some "a", none⟩⟩]).1
        ⟨"DELETE", "/tasks/1", ⟨none, none⟩⟩).1
      [Call.collection ⟨"POST", "/tasks", ⟨some "b", none⟩⟩]).1.tasks.lookup 1 = none ∧
    (1 : Int) ∉ createdIDs
      (run (taskHandler (run NewAPI [Call.collection ⟨"POST", "/tasks", ⟨some "a", none⟩⟩]).1
        ⟨"DELETE", "/tasks/1", ⟨none, none⟩⟩).1
      [Call.collection ⟨"POST", "/tasks", ⟨some "b", none⟩⟩]).2 :=
  ⟨(deleted_id_stays_deleted [Call.collection ⟨"POST", "/tasks", ⟨some "a", none⟩⟩]
      [Call.collection ⟨"POST", "/tasks", ⟨some "b", none⟩⟩]
      ⟨"DELETE", "/tasks/1", ⟨none, none⟩⟩ 1 rfl (by decide) (by decide) (by decide)).1,
    (deleted_id_stays_deleted [Call.collection ⟨"POST", "/tasks", ⟨some "a", none⟩⟩]
      [Call.collection ⟨"POST", "/tasks", ⟨some "b", none⟩⟩]
      ⟨"DELETE", "/tasks/1", ⟨none, none⟩⟩ 1 rfl (by decide) (by decide) (by decide)).2.1⟩

/-! ## Listing -/

theorem storedTasks_insert_new (m : TaskMap) (k : Int) (t : Task) (h : k ∉ m) :
    storedTasks (m.insert k t) = t :: storedTasks m := by
  rw [storedTasks, storedTasks, AList.insert_entries_of_neg h]
  rfl

theorem storedTasks_length (m : TaskMap) : (storedTasks m).length = m.keys.length := by
  simp [storedTasks, AList.keys, List.keys]

theorem mem_storedTasks (m : TaskMap) (t : Task) :
    t ∈ storedTasks m ↔ ∃ k, m.lookup k = some t := by
  rw [storedTasks]
  constructor
  · intro h
    obtain ⟨e, he, rfl⟩ := List.mem_map.1 h
    exact ⟨e.1, AList.mem_lookup_iff.2 he⟩
  · rintro ⟨k, hk⟩
    exact List.mem_map.2 ⟨⟨k, t⟩, AList.mem_lookup_iff.1 hk, rfl⟩

theorem count_values (t : Task) : ∀ l : List (Sigma fun _ : Int => Task), l.NodupKeys →
    (l.map Sigma.snd).count t = l.keys.countP (fun k => l.dlookup k = some t) := by
  intro l
  induction l with
  | nil => intro _; simp
  | cons e l ih =>
    intro nd
    obtain ⟨a, b⟩ := e
    obtain ⟨ha, nd'⟩ := List.nodupKeys_cons.1 nd
    rw [List.map_cons, List.count_cons, List.keys_cons, List.countP_cons, ih nd']
    have e1 : List.countP (fun k => decide (List.dlookup k (⟨a, b⟩ :: l) = some t)) l.keys =
        List.countP (fun k => decide (List.dlookup k l = some t)) l.keys := by
      apply List.countP_congr
      intro k hk
      have hne : k ≠ a := by rintro rfl; exact ha hk
      simp only [List.dlookup_cons_ne l ⟨a, b⟩ hne]
    rw [e1]
    simp [List.dlookup_cons_eq]

theorem count_storedTasks (m : TaskMap) (t : Task) :
    (storedTasks m).count t = m.keys.countP (fun k => m.lookup k = some t) := by
  rw [storedTasks]
  exact count_values t m.entries m.nodupKeys

/-- C8: for every store, GET on the collection answers 200 with an array (a non-nil slice,
so never `null`) that is, up to order, the collection of values of the map: it has as many
elements as the map has keys, a Task occurs in it exactly as many times as there are keys
bound to it (so every stored Task is there, once per entry, and nothing else is), the store
is left as it was, and for the empty map the answer is the empty array. -/
theorem get_tasks_lists_the_map (api : API) (rg : Request) (hgm : rg.Method = "GET") :
    ∃ list : Multiset Task,
      tasksHandler api rg = (api, writeJSON 200 (Data.tasks list)) ∧
      (tasksHandler api rg).2.data ≠ Data.null ∧
      Multiset.card list = api.tasks.keys.length ∧
      (∀ t, list.count t = api.tasks.keys.countP (fun k => api.tasks.lookup k = some t)) ∧
      (∀ t, t ∈ list ↔ ∃ k, api.tasks.lookup k = some t) ∧
      (api.tasks = ∅ → (tasksHandler api rg).2 = writeJSON 200 (Data.tasks 0)) := by
  have e := tasksHandler_get api rg hgm
  refine ⟨(storedTasks api.tasks : List Task), e, ?_, ?_, ?_, ?_, ?_⟩
  · rw [e]; exact Data.noConfusion
  · rw [Multiset.coe_card]; exact storedTasks_length _
  · intro t; rw [Multiset.coe_count]; exact count_storedTasks _ t
  · intro t; rw [Multiset.mem_coe]; exact mem_storedTasks _ t
  · intro h; rw [e, h]; rfl

theorem get_tasks_lists_the_map_witness :
    ∃ list : Multiset Task,
      tasksHandler (API.mk ((AList.singleton 1 ⟨1, "a", false⟩).insert 2 ⟨2, "b", true⟩) 3)
          ⟨"GET", "/tasks", ⟨none, none⟩⟩ =
        (API.mk ((AList.singleton 1 ⟨1, "a", false⟩).insert 2 ⟨2, "b", true⟩) 3,
          writeJSON 200 (Data.tasks list)) ∧
      Multiset.card list = 2 ∧
      list.count ⟨2, "b", true⟩ = 1 := by
  obtain ⟨list, h1, _, h2, h3, _⟩ :=
    get_tasks_lists_the_map
      (API.mk ((AList.singleton 1 ⟨1, "a", false⟩).insert 2 ⟨2, "b", true⟩) 3)
      ⟨"GET", "/tasks", ⟨none, none⟩⟩ rfl
  refine ⟨list, h1, h2, ?_⟩
  rw [h3]
  decide

/-! ## Listing after creations only -/

/-- The item handler never answers 201. -/
theorem taskHandler_createdID (api : API) (r : Request) :
    createdID (taskHandler api r).2 = none := by
  cases hid : Atoi (TrimPrefix r.Path.data "/tasks/".data) with
  | none => rw [taskHandler_invalid_id api r hid]; rfl
  | some id =>
    cases hl : api.tasks.lookup id with
    | none => rw [taskHandler_absent api r id hid hl]; rfl
    | some task =>
      by_cases hg : r.Method = "GET"
      · rw [taskHandler_get api r id task hid hl hg]; rfl
      · by_cases hp : r.Method = "PUT"
        · cases hb : r.Body.Completed with
          | none => rw [taskHandler_put_invalid api r id task hid hl hp hb]; rfl
          | some b => rw [taskHandler_put api r id task b hid hl hp hb]; rfl
        · by_cases hd : r.Method = "DELETE"
          · rw [taskHandler_delete api r id task hid hl hd]; rfl
          · rw [taskHandler_other api r id task hid hl hg hp hd]; rfl

/-- A call either is no creation, answers no 201 and, unless it is a PUT or a DELETE,
leaves the store alone; or it is a creation with some title, and stores and returns the new
task. -/
theorem handle_posted (api : API) (c : Call) :
    (postedTitle c = none ∧ createdID (handle api c).2 = none ∧
      (c.request.Method ≠ "PUT" ∧ c.request.Method ≠ "DELETE" → (handle api c).1 = api)) ∨
    (∃ title, postedTitle c = some title ∧ handle api c =
      (⟨api.tasks.insert api.nextID ⟨api.nextID, title, false⟩, wrapInt (api.nextID + 1)⟩,
        writeJSON 201 (Data.task ⟨api.nextID, title, false⟩))) := by
  cases c with
  | collection r =>
    simp only [handle, postedTitle, Call.request]
    by_cases hg : r.Method = "GET"
    · left
      have hp : r.Method ≠ "POST" := by rw [hg]; decide
      rw [tasksHandler_get api r hg]
      simp [createdID, writeJSON, hp]
    · by_cases hp : r.Method = "POST"
      · cases hb : r.Body.Title with
        | none =>
          left; rw [tasksHandler_post_invalid api r hp hb]
          simp [createdID, writeJSON, writeError, hp]
        | some title =>
          right
          exact ⟨title, by simp [hp], tasksHandler_post api r title hp hb⟩
      · left; rw [tasksHandler_other api r hg hp]
        simp [createdID, writeJSON, writeError, hp]
  | item r =>
    left
    refine ⟨rfl, taskHandler_createdID api r, ?_⟩
    rintro ⟨hp, hd⟩
    simp only [Call.request] at hp hd
    simp only [handle]
    cases hid : Atoi (TrimPrefix r.Path.data "/tasks/".data) with
    | none => rw [taskHandler_invalid_id api r hid]
    | some id =>
      cases hl : api.tasks.lookup id with
      | none => rw [taskHandler_absent api r id hid hl]
      | some task =>
        by_cases hg : r.Method = "GET"
        · rw [taskHandler_get api r id task hid hl hg]
        · rw [taskHandler_other api r id task hid hl hg hp hd]

theorem newTasks_length (ts : List String) : ∀ n : Int, (newTasks n ts).length = ts.length := by
  induction ts with
  | nil => intro n; rfl
  | cons t ts ih => intro n; simp [newTasks, ih]

theorem newTasks_ids (ts : List String) : ∀ n : Int,
    (newTasks n ts).map Task.ID = (List.range ts.length).map (fun k : Nat => n + (k : Int)) := by
  induction ts with
  | nil => intro n; rfl
  | cons t ts ih =>
    intro n
    rw [newTasks, List.map_cons, ih, List.length_cons, List.range_succ_eq_map, List.map_cons,
      List.map_map]
    congr 1
    · simp
    · apply List.map_congr_left
      intro k _
      simp only [Function.comp, Nat.succ_eq_add_one]
      push_cast
      ring

theorem newTasks_titles (ts : List String) : ∀ n : Int,
    (newTasks n ts).map Task.Title = ts := by
  induction ts with
  | nil => intro n; rfl
  | cons t ts ih => intro n; simp [newTasks, ih]

theorem newTasks_not_completed (ts : List String) : ∀ n : Int,
    ∀ t ∈ newTasks n ts, t.Completed = false := by
  induction ts with
  | nil => intro n t h; simp [newTasks] at h
  | cons t ts ih =>
    intro n x h
    simp only [newTasks, List.mem_cons] at h
    rcases h with rfl | h
    · rfl
    · exact ih _ x h

/-- The number of 201 responses of a run is the number of creations among its calls. -/
theorem createdIDs_length (cs : List Call) : ∀ api : API,
    (createdIDs (run api cs).2).length = (postedTitles cs).length := by
  induction cs with
  | nil => intro api; rfl
  | cons c cs ih =>
    intro api
    rcases handle_posted api c with ⟨h1, h2, _⟩ | ⟨title, h1, h2⟩
    · simp [run, createdIDs, postedTitles, List.filterMap_cons, h1, h2]
      exact ih _
    · have h3 : createdID (handle api c).2 = some api.nextID := by
        rw [h2]; simp [createdID, writeJSON]
      simp [run, createdIDs, postedTitles, List.filterMap_cons, h1, h3]
      exact ih _

theorem newTasks_nil_of_nil (ts : List String) (h : ts = []) (n n' : Int) :
    newTasks n ts = newTasks n' ts := by
  subst h; rfl

/-- Along a run without PUT and DELETE the listing grows by the created tasks only, as long
as the counter does not wrap before the last creation. -/
theorem storedTasks_run (cs : List Call) : ∀ api : API,
    (∀ c ∈ cs, c.request.Method ≠ "PUT" ∧ c.request.Method ≠ "DELETE") →
    (postedTitles cs ≠ [] →
      (∀ k, k ∈ api.tasks → k < api.nextID) ∧ -2 ^ 63 ≤ api.nextID ∧
      api.nextID + ((postedTitles cs).length : Int) ≤ 2 ^ 63) →
    (storedTasks (run api cs).1.tasks).Perm
      (storedTasks api.tasks ++ newTasks api.nextID (postedTitles cs)) := by
  induction cs with
  | nil => intro api _ _; simp [run, postedTitles, newTasks]
  | cons c cs ih =>
    intro api hcs hb
    have hcs' : ∀ c ∈ cs, c.request.Method ≠ "PUT" ∧ c.request.Method ≠ "DELETE" :=
      fun c hc => hcs c (List.mem_cons_of_mem _ hc)
    have e1 : (run api (c :: cs)).1 = (run (handle api c).1 cs).1 := rfl
    rw [e1]
    rcases handle_posted api c with ⟨h1, _, h3⟩ | ⟨title, h1, h2⟩
    · have hs := h3 (hcs c (List.mem_cons_self _ _))
      have e2 : postedTitles (c :: cs) = postedTitles cs := by
        simp [postedTitles, List.filterMap_cons, h1]
      rw [e2] at hb ⊢
      rw [hs]
      exact ih api hcs' hb
    · have e2 : postedTitles (c :: cs) = title :: postedTitles cs := by
        simp [postedTitles, List.filterMap_cons, h1]
      rw [e2] at hb ⊢
      obtain ⟨hk, hlo, hhi⟩ := hb (List.cons_ne_nil _ _)
      rw [List.length_cons] at hhi
      push_cast at hhi
      have hnew : api.nextID ∉ api.tasks := fun hmem => lt_irrefl _ (hk _ hmem)
      have hb' : postedTitles cs ≠ [] →
          (∀ k, k ∈ (handle api c).1.tasks → k < (handle api c).1.nextID) ∧
          -2 ^ 63 ≤ (handle api c).1.nextID ∧
          (handle api c).1.nextID + ((postedTitles cs).length : Int) ≤ 2 ^ 63 := by
        intro hne
        have hpos : 0 < (postedTitles cs).length := List.length_pos.2 hne
        have hw : wrapInt (api.nextID + 1) = api.nextID + 1 := by
          apply wrapInt_of_range <;> omega
        rw [h2]
        simp only [hw]
        refine ⟨?_, by omega, by omega⟩
        intro k hmem
        simp only [AList.mem_insert] at hmem
        rcases hmem with rfl | hmem
        · omega
        · have := hk k hmem
          omega
      have h := ih (handle api c).1 hcs' hb'
      have hnt : newTasks (handle api c).1.nextID (postedTitles cs) =
          newTasks (api.nextID + 1) (postedTitles cs) := by
        by_cases hne : postedTitles cs = []
        · exact newTasks_nil_of_nil _ hne _ _
        · have hpos : 0 < (postedTitles cs).length := List.length_pos.2 hne
          rw [h2]
          simp only
          rw [wrapInt_of_range] <;> omega
      rw [hnt] at h
      rw [h2] at h
      simp only at h
      rw [storedTasks_insert_new _ _ _ hnew] at h
      rw [newTasks, h2]
      refine h.trans ?_
      simp only [List.cons_append]
      exact List.perm_middle.symm

/-- C7: starting from `NewAPI`, after a sequence of calls without PUT and DELETE in which
`N` creations succeed, `N` at most `2^63 - 1` (the largest `int`, which is also the largest
number of entries `len(api.tasks)` can report), GET on the collection answers 200 with an
array of exactly `N` Tasks: up to order they are `Task{1, t₁, false}, ...,
Task{N, t_N, false}` where `t_i` is the title of the i-th creation, so the ids are 1..N once
each and no Task is completed. -/
theorem list_after_creations (cs : List Call) (rg : Request)
    (hcs : ∀ c ∈ cs, c.request.Method ≠ "PUT" ∧ c.request.Method ≠ "DELETE")
    (hgm : rg.Method = "GET") (hN : (postedTitles cs).length < 2 ^ 63) :
    ∃ list : Multiset Task,
      tasksHandler (run NewAPI cs).1 rg =
        ((run NewAPI cs).1, writeJSON 200 (Data.tasks list)) ∧
      (createdIDs (run NewAPI cs).2).length = (postedTitles cs).length ∧
      list = (newTasks 1 (postedTitles cs) : List Task) ∧
      Multiset.card list = (postedTitles cs).length ∧
      list.map Task.ID =
        ((List.range (postedTitles cs).length).map (fun k : Nat => (k : Int) + 1) : List Int) ∧
      (∀ t ∈ list, t.Completed = false) := by
  have hperm := storedTasks_run cs NewAPI hcs (by
    intro _
    refine ⟨by intro k hk; simp [NewAPI] at hk, by simp [NewAPI], ?_⟩
    simp only [NewAPI]
    omega)
  have hnil : storedTasks NewAPI.tasks = [] := rfl
  rw [hnil, List.nil_append] at hperm
  have e : ((storedTasks (run NewAPI cs).1.tasks : List Task) : Multiset Task) =
      (newTasks 1 (postedTitles cs) : List Task) := Multiset.coe_eq_coe.2 hperm
  refine ⟨(storedTasks (run NewAPI cs).1.tasks : List Task), tasksHandler_get _ rg hgm,
    createdIDs_length cs NewAPI, e, ?_, ?_, ?_⟩
  · rw [e, Multiset.coe_card]; exact newTasks_length _ _
  · rw [e, Multiset.map_coe, newTasks_ids]
    congr 1
    apply List.map_congr_left
    intro k _
    ring
  · intro t ht
    rw [e, Multiset.mem_coe] at ht
    exact newTasks_not_completed _ _ t ht

theorem list_after_creations_witness :
    ∃ list : Multiset Task,
      tasksHandler
          (run NewAPI [Call.collection ⟨"POST", "/tasks", ⟨some "a", none⟩⟩,
            Call.collection ⟨"POST", "/tasks", ⟨some "b", none⟩⟩]).1
          ⟨"GET", "/tasks", ⟨none, none⟩⟩ =
        ((run NewAPI [Call.collection ⟨"POST", "/tasks", ⟨some "a", none⟩⟩,
            Call.collection ⟨"POST", "/tasks", ⟨some "b", none⟩⟩]).1,
          writeJSON 200 (Data.tasks list)) ∧
      list = ([⟨1, "a", false⟩, ⟨2, "b", false⟩] : List Task) ∧
      Multiset.card list = 2 := by
  obtain ⟨list, h1, _, h3, h4, _⟩ :=
    list_after_creations [Call.collection ⟨"POST", "/tasks", ⟨some "a", none⟩⟩,
        Call.collection ⟨"POST", "/tasks", ⟨some "b", none⟩⟩]
      ⟨"GET", "/tasks", ⟨none, none⟩⟩ (by decide) rfl (by decide)
  exact ⟨list, h1, h3, h4⟩

/-! ## The existence check comes first -/

/-- C9: for every store, every method, every body and every path whose suffix parses as an
integer id that is not a key of the store, `taskHandler` answers 404 with
`{"error":"task not found"}` and leaves the store as it is: neither the method nor the body
is looked at before the existence check. -/
theorem absent_id_is_not_found (api : API) (r : Request) (id : Int)
    (hid : Atoi (TrimPrefix r.Path.data "/tasks/".data) = some id)
    (hl : api.tasks.lookup id = none) :
    taskHandler api r =
      (api, ⟨"application/json", 404, Data.object "error" "task not found"⟩) :=
  taskHandler_absent api r id hid hl

theorem absent_id_is_not_found_witness :
    taskHandler (API.mk (AList.singleton 1 ⟨1, "a", false⟩) 2)
        ⟨"PUT", "/tasks/7", ⟨none, none⟩⟩ =
      (API.mk (AList.singleton 1 ⟨1, "a", false⟩) 2,
        ⟨"application/json", 404, Data.object "error" "task not found"⟩) :=
  absent_id_is_not_found (API.mk (AList.singleton 1 ⟨1, "a", false⟩) 2)
    ⟨"PUT", "/tasks/7", ⟨none, none⟩⟩ 7 (by decide) (by decide)

/-- C10, as stated, fails: on the store built by `NewAPI`, where task 1 does not exist, a
PATCH of `/tasks/1` is answered 404 with `{"error":"task not found"}`, not 405; so it is not
true that PATCH of `/tasks/1` answers 405 in every store. -/
theorem patch_on_new_store_is_not_found :
    taskHandler NewAPI ⟨"PATCH", "/tasks/1", ⟨none, none⟩⟩ =
      (NewAPI, ⟨"application/json", 404, Data.object "error" "task not found"⟩) ∧
    ¬ ∀ (api : API) (b : Body), (taskHandler api ⟨"PATCH", "/tasks/1", b⟩).2 =
      ⟨"application/json", 405, Data.object "error" "method not allowed"⟩ := by
  have h : taskHandler NewAPI ⟨"PATCH", "/tasks/1", ⟨none, none⟩⟩ =
      (NewAPI, ⟨"application/json", 404, Data.object "error" "task not found"⟩) :=
    taskHandler_absent NewAPI _ 1 (by decide) (by decide)
  refine ⟨h, ?_⟩
  intro hall
  have h2 := hall NewAPI ⟨none, none⟩
  rw [h] at h2
  exact absurd h2 (by decide)

/-- C10, amended: a PATCH of `/tasks/1` is answered 405 with
`{"error":"method not allowed"}` in every store in which task 1 exists, and 404 with
`{"error":"task not found"}` in every store in which it does not; the store is left as it
is either way. -/
theorem patch_task_one (api : API) (b : Body) :
    taskHandler api ⟨"PATCH", "/tasks/1", b⟩ =
      (api,
        if (api.tasks.lookup 1).isSome then
          ⟨"application/json", 405, Data.object "error" "method not allowed"⟩
        else ⟨"application/json", 404, Data.object "error" "task not found"⟩) := by
  have hid : Atoi (TrimPrefix "/tasks/1".data "/tasks/".data) = some 1 := by decide
  have hg : ("PATCH" : String) ≠ "GET" := by decide
  have hp : ("PATCH" : String) ≠ "PUT" := by decide
  have hd : ("PATCH" : String) ≠ "DELETE" := by decide
  cases hl : api.tasks.lookup 1 with
  | none =>
    rw [taskHandler_absent api _ 1 hid hl]
    rfl
  | some task =>
    rw [taskHandler_other api _ 1 task hid hl hg hp hd]
    rfl

/-! ## Failed requests -/

/-- A handled call either leaves the store alone and does not answer 201, or answers 201
and increments the counter, or answers 200 and keeps the counter. -/
theorem handle_status (api : API) (c : Call) :
    ((handle api c).1 = api ∧ (handle api c).2.status ≠ 201) ∨
    ((handle api c).2.status = 201 ∧ (handle api c).1.nextID = wrapInt (api.nextID + 1)) ∨
    ((handle api c).2.status = 200 ∧ (handle api c).1.nextID = api.nextID) := by
  cases c with
  | collection r =>
    simp only [handle]
    by_cases hg : r.Method = "GET"
    · left; rw [tasksHandler_get api r hg]; exact ⟨rfl, by simp [writeJSON, writeError]⟩
    · by_cases hp : r.Method = "POST"
      · cases hb : r.Body.Title with
        | none => left; rw [tasksHandler_post_invalid api r hp hb]; exact ⟨rfl, by simp [writeJSON, writeError]⟩
        | some title => right; left; rw [tasksHandler_post api r title hp hb]; exact ⟨rfl, rfl⟩
      · left; rw [tasksHandler_other api r hg hp]; exact ⟨rfl, by simp [writeJSON, writeError]⟩
  | item r =>
    simp only [handle]
    cases hid : Atoi (TrimPrefix r.Path.data "/tasks/".data) with
    | none => left; rw [taskHandler_invalid_id api r hid]; exact ⟨rfl, by simp [writeJSON, writeError]⟩
    | some id =>
      cases hl : api.tasks.lookup id with
      | none => left; rw [taskHandler_absent api r id hid hl]; exact ⟨rfl, by simp [writeJSON, writeError]⟩
      | some task =>
        by_cases hg : r.Method = "GET"
        · left; rw [taskHandler_get api r id task hid hl hg]; exact ⟨rfl, by simp [writeJSON, writeError]⟩
        · by_cases hp : r.Method = "PUT"
          · cases hb : r.Body.Completed with
            | none =>
              left; rw [taskHandler_put_invalid api r id task hid hl hp hb]
              exact ⟨rfl, by simp [writeJSON, writeError]⟩
            | some b =>
              right; right; rw [taskHandler_put api r id task b hid hl hp hb]
              exact ⟨rfl, rfl⟩
          · by_cases hd : r.Method = "DELETE"
            · right; right; rw [taskHandler_delete api r id task hid hl hd]
              exact ⟨rfl, rfl⟩
            · left; rw [taskHandler_other api r id task hid hl hg hp hd]
              exact ⟨rfl, by simp [writeJSON, writeError]⟩

/-- C11: for every store, every method and every path whose suffix after `/tasks/` is not
accepted by `strconv.Atoi`, `taskHandler` answers 400 with `{"error":"invalid id"}` and
leaves the store as it is; the answer is the same on every other store `api'`, so the store
is not consulted: the id check comes before the existence check and the method dispatch. -/
theorem invalid_id_is_bad_request (api api' : API) (r : Request)
    (hid : Atoi (TrimPrefix r.Path.data "/tasks/".data) = none) :
    taskHandler api r =
      (api, ⟨"application/json", 400, Data.object "error" "invalid id"⟩) ∧
    (taskHandler api' r).2 = (taskHandler api r).2 := by
  rw [taskHandler_invalid_id api r hid, taskHandler_invalid_id api' r hid]
  exact ⟨rfl, rfl⟩

theorem invalid_id_is_bad_request_witness :
    (taskHandler (API.mk (AList.singleton 1 ⟨1, "a", false⟩) 2)
        ⟨"GET", "/tasks/abc", ⟨none, none⟩⟩ =
      (API.mk (AList.singleton 1 ⟨1, "a", false⟩) 2,
        ⟨"application/json", 400, Data.object "error" "invalid id"⟩)) ∧
    (taskHandler NewAPI ⟨"DELETE", "/tasks/", ⟨none, none⟩⟩ =
      (NewAPI, ⟨"application/json", 400, Data.object "error" "invalid id"⟩)) ∧
    (taskHandler NewAPI ⟨"PUT", "/tasks/1/2", ⟨none, some true⟩⟩ =
      (NewAPI, ⟨"application/json", 400, Data.object "error" "invalid id"⟩)) ∧
    (taskHandler NewAPI ⟨"PATCH", "/tasks/1.5", ⟨none, none⟩⟩ =
      (NewAPI, ⟨"application/json", 400, Data.object "error" "invalid id"⟩)) :=
  ⟨(invalid_id_is_bad_request (API.mk (AList.singleton 1 ⟨1, "a", false⟩) 2) NewAPI
      ⟨"GET", "/tasks/abc", ⟨none, none⟩⟩ (by decide)).1,
    (invalid_id_is_bad_request NewAPI NewAPI
      ⟨"DELETE", "/tasks/", ⟨none, none⟩⟩ (by decide)).1,
    (invalid_id_is_bad_request NewAPI NewAPI
      ⟨"PUT", "/tasks/1/2", ⟨none, some true⟩⟩ (by decide)).1,
    (invalid_id_is_bad_request NewAPI NewAPI
      ⟨"PATCH", "/tasks/1.5", ⟨none, none⟩⟩ (by decide)).1⟩

/-- C12: errors are atomic.  For every store and every call to either handler, when the
response status is 400, 404 or 405 the store after the call (map and `nextID`) is the store
before it. -/
theorem error_leaves_store (api : API) (c : Call)
    (h : (handle api c).2.status = 400 ∨ (handle api c).2.status = 404 ∨
      (handle api c).2.status = 405) :
    (handle api c).1 = api := by
  rcases handle_status api c with ⟨h1, _⟩ | ⟨h1, _⟩ | ⟨h1, _⟩
  · exact h1
  · rw [h1] at h; omega
  · rw [h1] at h; omega

theorem error_leaves_store_witness :
    (handle (API.mk (AList.singleton 1 ⟨1, "a", false⟩) 2)
      (Call.item ⟨"PUT", "/tasks/1", ⟨none, none⟩⟩)).1 =
      API.mk (AList.singleton 1 ⟨1, "a", false⟩) 2 :=
  error_leaves_store (API.mk (AList.singleton 1 ⟨1, "a", false⟩) 2)
    (Call.item ⟨"PUT", "/tasks/1", ⟨none, none⟩⟩) (Or.inl (by decide))

/-- C13: for every store, a POST to the collection whose body fails to decode answers 400
with `{"error":"invalid json"}` and leaves the store, `nextID` included, as it is, so every
request after it (the next successful POST among them) is handled as if the failed POST had
not been sent; and in general a call applies the increment `nextID++` of the 64-bit `int`
once when it answers 201 and leaves `nextID` alone otherwise. -/
theorem invalid_json_consumes_no_id (api : API) (r : Request) (hm : r.Method = "POST")
    (hb : r.Body.Title = none) :
    tasksHandler api r =
      (api, ⟨"application/json", 400, Data.object "error" "invalid json"⟩) ∧
    (tasksHandler api r).1.nextID = api.nextID ∧
    (∀ r₂ : Request, tasksHandler (tasksHandler api r).1 r₂ = tasksHandler api r₂) ∧
    (∀ c : Call, (handle api c).1.nextID =
      if (handle api c).2.status = 201 then wrapInt (api.nextID + 1) else api.nextID) := by
  have e := tasksHandler_post_invalid api r hm hb
  refine ⟨e, by rw [e], by intro r₂; rw [e], ?_⟩
  intro c
  rcases handle_status api c with ⟨h1, h2⟩ | ⟨h1, h2⟩ | ⟨h1, h2⟩
  · rw [if_neg h2, h1]
  · rw [if_pos h1, h2]
  · rw [if_neg (by rw [h1]; decide), h2]

theorem invalid_json_consumes_no_id_witness :
    (tasksHandler NewAPI ⟨"POST", "/tasks", ⟨none, none⟩⟩ =
      (NewAPI, ⟨"application/json", 400, Data.object "error" "invalid json"⟩)) ∧
    (tasksHandler (tasksHandler NewAPI ⟨"POST", "/tasks", ⟨none, none⟩⟩).1
        ⟨"POST", "/tasks", ⟨some "buy milk", none⟩⟩).2 =
      writeJSON 201 (Data.task ⟨1, "buy milk", false⟩) := by
  obtain ⟨h1, _, h3, _⟩ :=
    invalid_json_consumes_no_id NewAPI ⟨"POST", "/tasks", ⟨none, none⟩⟩ rfl rfl
  refine ⟨h1, ?_⟩
  rw [h3]
  rfl

/-- C14: for every store and every method other than GET and POST, `tasksHandler` answers
405 with `{"error":"method not allowed"}` and leaves the store as it is, whatever the body:
replacing the body by any other changes nothing, so the body is not read. -/
theorem collection_method_not_allowed (api : API) (r : Request) (hg : r.Method ≠ "GET")
    (hp : r.Method ≠ "POST") :
    tasksHandler api r =
      (api, ⟨"application/json", 405, Data.object "error" "method not allowed"⟩) ∧
    ∀ b : Body, tasksHandler api { r with Body := b } = tasksHandler api r := by
  refine ⟨tasksHandler_other api r hg hp, ?_⟩
  intro b
  rw [tasksHandler_other api r hg hp, tasksHandler_other api { r with Body := b } hg hp]

theorem collection_method_not_allowed_witness :
    (tasksHandler NewAPI ⟨"PUT", "/tasks", ⟨none, some true⟩⟩ =
      (NewAPI, ⟨"application/json", 405, Data.object "error" "method not allowed"⟩)) ∧
    (tasksHandler NewAPI ⟨"DELETE", "/tasks", ⟨none, none⟩⟩ =
      (NewAPI, ⟨"application/json", 405, Data.object "error" "method not allowed"⟩)) ∧
    (tasksHandler NewAPI ⟨"PATCH", "/tasks", ⟨some "x", none⟩⟩ =
      (NewAPI, ⟨"application/json", 405, Data.object "error" "method not allowed"⟩)) :=
  ⟨(collection_method_not_allowed NewAPI ⟨"PUT", "/tasks", ⟨none, some true⟩⟩
      (by decide) (by decide)).1,
    (collection_method_not_allowed NewAPI ⟨"DELETE", "/tasks", ⟨none, none⟩⟩
      (by decide) (by decide)).1,
    (collection_method_not_allowed NewAPI ⟨"PATCH", "/tasks", ⟨some "x", none⟩⟩
      (by decide) (by decide)).1⟩

/-! ## Frame conditions -/

/-- C17: DELETE removes exactly one entry.  For every store and every id bound in it, after
DELETE of that id the map is the previous map with the key removed: the id is unbound, the
keys are the previous keys without it, every other key is bound to the same Task as before,
and `nextID` is as before. -/
theorem delete_removes_one_entry (api : API) (id : Int) (task : Task) (rd : Request)
    (hl : api.tasks.lookup id = some task)
    (hdm : rd.Method = "DELETE")
    (hdp : Atoi (TrimPrefix rd.Path.data "/tasks/".data) = some id) :
    (taskHandler api rd).1.tasks = api.tasks.erase id ∧
    (taskHandler api rd).1.tasks.lookup id = none ∧
    (taskHandler api rd).1.tasks.keys = api.tasks.keys.erase id ∧
    (∀ k, k ≠ id → (taskHandler api rd).1.tasks.lookup k = api.tasks.lookup k) ∧
    (taskHandler api rd).1.nextID = api.nextID := by
  rw [taskHandler_delete api rd id task hdp hl hdm]
  refine ⟨rfl, AList.lookup_erase id _, AList.keys_erase id _, ?_, rfl⟩
  intro k hk
  exact AList.lookup_erase_ne hk

theorem delete_removes_one_entry_witness :
    (taskHandler (API.mk ((AList.singleton 1 ⟨1, "a", false⟩).insert 2 ⟨2, "b", true⟩) 3)
        ⟨"DELETE", "/tasks/1", ⟨none, none⟩⟩).1.tasks.lookup 1 = none ∧
    (taskHandler (API.mk ((AList.singleton 1 ⟨1, "a", false⟩).insert 2 ⟨2, "b", true⟩) 3)
        ⟨"DELETE", "/tasks/1", ⟨none, none⟩⟩).1.tasks.lookup 2 = some ⟨2, "b", true⟩ ∧
    (taskHandler (API.mk ((AList.singleton 1 ⟨1, "a", false⟩).insert 2 ⟨2, "b", true⟩) 3)
        ⟨"DELETE", "/tasks/1", ⟨none, none⟩⟩).1.nextID = 3 := by
  obtain ⟨_, h2, _, h4, h5⟩ :=
    delete_removes_one_entry
      (API.mk ((AList.singleton 1 ⟨1, "a", false⟩).insert 2 ⟨2, "b", true⟩) 3) 1
      ⟨1, "a", false⟩ ⟨"DELETE", "/tasks/1", ⟨none, none⟩⟩ (by decide) rfl (by decide)
  refine ⟨h2, ?_, h5⟩
  rw [h4 2 (by decide)]
  decide

/-- A GET leaves the store as it is, on either handler and whatever its outcome. -/
theorem handle_get (api : API) (c : Call) (hm : c.request.Method = "GET") :
    (handle api c).1 = api := by
  cases c with
  | collection r => simp only [handle]; rw [tasksHandler_get api r hm]
  | item r =>
    simp only [handle]
    cases hid : Atoi (TrimPrefix r.Path.data "/tasks/".data) with
    | none => rw [taskHandler_invalid_id api r hid]
    | some id =>
      cases hl : api.tasks.lookup id with
      | none => rw [taskHandler_absent api r id hid hl]
      | some task => rw [taskHandler_get api r id task hid hl hm]

theorem run_replicate_get (api : API) (c : Call) (hm : c.request.Method = "GET") :
    ∀ n : Nat, run api (List.replicate n c) = (api, List.replicate n (handle api c).2) := by
  intro n
  induction n with
  | zero => rfl
  | succ n ih =>
    simp only [List.replicate_succ, run]
    rw [handle_get api c hm, ih]

/-- C18: reads do not write.  For every store, a GET handled by `tasksHandler` or by
`taskHandler` (whatever the path and the outcome) leaves the map and `nextID` as they were;
repeated any number of times it gives the same response every time, and every sequence of
calls after it is handled as if the GET had not been sent. -/
theorem get_does_not_write (api : API) (c : Call) (hm : c.request.Method = "GET") :
    (handle api c).1 = api ∧
    (∀ n : Nat, run api (List.replicate n c) = (api, List.replicate n (handle api c).2)) ∧
    (∀ cs : List Call, run (handle api c).1 cs = run api cs) :=
  ⟨handle_get api c hm, run_replicate_get api c hm, fun cs => by rw [handle_get api c hm]⟩

theorem get_does_not_write_witness :
    (handle (API.mk (AList.singleton 1 ⟨1, "a", false⟩) 2)
      (Call.item ⟨"GET", "/tasks/1", ⟨none, none⟩⟩)).1 =
      API.mk (AList.singleton 1 ⟨1, "a", false⟩) 2 ∧
    (handle (API.mk (AList.singleton 1 ⟨1, "a", false⟩) 2)
      (Call.collection ⟨"GET", "/tasks", ⟨none, none⟩⟩)).1 =
      API.mk (AList.singleton 1 ⟨1, "a", false⟩) 2 :=
  ⟨(get_does_not_write (API.mk (AList.singleton 1 ⟨1, "a", false⟩) 2)
      (Call.item ⟨"GET", "/tasks/1", ⟨none, none⟩⟩) rfl).1,
    (get_does_not_write (API.mk (AList.singleton 1 ⟨1, "a", false⟩) 2)
      (Call.collection ⟨"GET", "/tasks", ⟨none, none⟩⟩) rfl).1⟩

/-- C19: PUT is idempotent.  For every store, every path and every body, handling the same
PUT on an item twice in a row ends in the same store as handling it once, and the second
response is the first one (same status, same Task or same error). -/
theorem put_is_idempotent (api : API) (r : Request) (hm : r.Method = "PUT") :
    (taskHandler (taskHandler api r).1 r).1 = (taskHandler api r).1 ∧
    (taskHandler (taskHandler api r).1 r).2 = (taskHandler api r).2 := by
  cases hid : Atoi (TrimPrefix r.Path.data "/tasks/".data) with
  | none => rw [taskHandler_invalid_id api r hid, taskHandler_invalid_id api r hid]; exact ⟨rfl, rfl⟩
  | some id =>
    cases hl : api.tasks.lookup id with
    | none =>
      rw [taskHandler_absent api r id hid hl, taskHandler_absent api r id hid hl]
      exact ⟨rfl, rfl⟩
    | some task =>
      cases hb : r.Body.Completed with
      | none =>
        rw [taskHandler_put_invalid api r id task hid hl hm hb,
          taskHandler_put_invalid api r id task hid hl hm hb]
        exact ⟨rfl, rfl⟩
      | some b =>
        rw [taskHandler_put api r id task b hid hl hm hb]
        have hl2 : (API.mk (api.tasks.insert id { task with Completed := b })
            api.nextID).tasks.lookup id = some { task with Completed := b } :=
          AList.lookup_insert _
        rw [taskHandler_put _ r id _ b hid hl2 hm hb]
        refine ⟨?_, rfl⟩
        simp only [AList.insert_insert]

theorem put_is_idempotent_witness :
    (taskHandler (taskHandler (API.mk (AList.singleton 1 ⟨1, "a", false⟩) 2)
        ⟨"PUT", "/tasks/1", ⟨none, some true⟩⟩).1 ⟨"PUT", "/tasks/1", ⟨none, some true⟩⟩).1 =
      (taskHandler (API.mk (AList.singleton 1 ⟨1, "a", false⟩) 2)
        ⟨"PUT", "/tasks/1", ⟨none, some true⟩⟩).1 ∧
    (taskHandler (taskHandler (API.mk (AList.singleton 1 ⟨1, "a", false⟩) 2)
        ⟨"PUT", "/tasks/1", ⟨none, some true⟩⟩).1 ⟨"PUT", "/tasks/1", ⟨none, some true⟩⟩).2 =
      (taskHandler (API.mk (AList.singleton 1 ⟨1, "a", false⟩) 2)
        ⟨"PUT", "/tasks/1", ⟨none, some true⟩⟩).2 :=
  put_is_idempotent (API.mk (AList.singleton 1 ⟨1, "a", false⟩) 2)
    ⟨"PUT", "/tasks/1", ⟨none, some true⟩⟩ rfl

/-! ## Requests in flight at the same time -/

/-- The handler is its first part followed at once by its second part. -/
theorem taskHandler_eq_check_act (api : API) (r : Request) :
    taskHandler api r =
      match taskHandlerCheck api r with
      | Except.error resp => (api, resp)
      | Except.ok (id, task) => taskHandlerAct api r id task := by
  cases hid : Atoi (TrimPrefix r.Path.data "/tasks/".data) with
  | none => simp [taskHandler, taskHandlerCheck, hid]
  | some id =>
    cases hl : api.tasks.lookup id with
    | none => simp [taskHandler, taskHandlerCheck, hid, hl]
    | some task => simp [taskHandler, taskHandlerCheck, taskHandlerAct, hid, hl]

/-- A goroutine that takes its two steps with nothing in between handles its request as
`taskHandler` does. -/
theorem exec_alone (api : API) (r : Request) :
    exec api [Thread.start r] [0, 0] =
      ((taskHandler api r).1, [Thread.done (taskHandler api r).2]) := by
  rw [taskHandler_eq_check_act]
  cases h : taskHandlerCheck api r with
  | error resp => simp [exec, Thread.step, h]
  | ok p =>
    obtain ⟨id, task⟩ := p
    simp [exec, Thread.step, h]

theorem taskHandlerCheck_present (api : API) (r : Request) (id : Int) (task : Task)
    (hid : Atoi (TrimPrefix r.Path.data "/tasks/".data) = some id)
    (hl : api.tasks.lookup id = some task) :
    taskHandlerCheck api r = Except.ok (id, task) := by
  simp [taskHandlerCheck, hid, hl]

theorem taskHandlerCheck_absent (api : API) (r : Request) (id : Int)
    (hid : Atoi (TrimPrefix r.Path.data "/tasks/".data) = some id)
    (hl : api.tasks.lookup id = none) :
    taskHandlerCheck api r = Except.error (writeError 404 "task not found") := by
  simp [taskHandlerCheck, hid, hl]

theorem taskHandlerAct_put (api : API) (r : Request) (id : Int) (task : Task) (b : Bool)
    (hm : r.Method = "PUT") (hb : r.Body.Completed = some b) :
    taskHandlerAct api r id task =
      ({ api with tasks := api.tasks.insert id { task with Completed := b } },
        writeJSON 200 (Data.task { task with Completed := b })) := by
  simp [taskHandlerAct, hm, hb]

theorem taskHandlerAct_delete (api : API) (r : Request) (id : Int) (task : Task)
    (hm : r.Method = "DELETE") :
    taskHandlerAct api r id task =
      ({ api with tasks := api.tasks.erase id },
        writeJSON 200 (Data.object "status" "deleted")) := by
  have h1 : ("DELETE" : String) ≠ "GET" := by decide
  have h2 : ("DELETE" : String) ≠ "PUT" := by decide
  simp [taskHandlerAct, hm, h1, h2]

/-- C15, as stated, fails: on a store holding task 1, let a PUT of `/tasks/1` with
`completed = true` and a DELETE of `/tasks/1` be in flight together, and let the PUT pass its
existence check, then the DELETE run to its end, then the PUT do its write.  After the
DELETE's steps the task is gone and the DELETE has answered 200 `{"status":"deleted"}`; after
the PUT's write the task is in the store again. -/
theorem put_write_after_delete_restores_task :
    (exec (API.mk (AList.singleton 1 ⟨1, "buy milk", false⟩) 2)
      [Thread.start ⟨"PUT", "/tasks/1", ⟨none, some true⟩⟩,
        Thread.start ⟨"DELETE", "/tasks/1", ⟨none, none⟩⟩] [0, 1, 1]).1.tasks.lookup 1 = none ∧
    (exec (API.mk (AList.singleton 1 ⟨1, "buy milk", false⟩) 2)
      [Thread.start ⟨"PUT", "/tasks/1", ⟨none, some true⟩⟩,
        Thread.start ⟨"DELETE", "/tasks/1", ⟨none, none⟩⟩] [0, 1, 1]).2 =
      [Thread.checked ⟨"PUT", "/tasks/1", ⟨none, some true⟩⟩ 1 ⟨1, "buy milk", false⟩,
        Thread.done (writeJSON 200 (Data.object "status" "deleted"))] ∧
    (exec (API.mk (AList.singleton 1 ⟨1, "buy milk", false⟩) 2)
      [Thread.start ⟨"PUT", "/tasks/1", ⟨none, some true⟩⟩,
        Thread.start ⟨"DELETE", "/tasks/1", ⟨none, none⟩⟩] [0, 1, 1, 0]).1.tasks.lookup 1 =
      some ⟨1, "buy milk", true⟩ ∧
    (exec (API.mk (AList.singleton 1 ⟨1, "buy milk", false⟩) 2)
      [Thread.start ⟨"PUT", "/tasks/1", ⟨none, some true⟩⟩,
        Thread.start ⟨"DELETE", "/tasks/1", ⟨none, none⟩⟩] [0, 1, 1, 0]).2 =
      [Thread.done (writeJSON 200 (Data.task ⟨1, "buy milk", true⟩)),
        Thread.done (writeJSON 200 (Data.object "status" "deleted"))] := by
  refine ⟨?_, ?_, ?_, ?_⟩ <;> decide

/-- C15, amended: check-then-mutate is two critical sections, not one.  For every store
that binds `id`, a PUT and a DELETE of `id` in flight together leave the task absent when
one runs to its end before the other starts, in either order; but when the PUT passes its
existence check, then the DELETE runs to its end (the task is gone and the DELETE has
answered 200), and then the PUT does its write, the store binds `id` again, to the Task the
PUT read with the PUT's `completed`, and both requests have answered 200. -/
theorem put_and_delete_in_flight (api : API) (id : Int) (task : Task) (b : Bool)
    (rp rd : Request) (hl : api.tasks.lookup id = some task)
    (hpm : rp.Method = "PUT")
    (hpp : Atoi (TrimPrefix rp.Path.data "/tasks/".data) = some id)
    (hpb : rp.Body.Completed = some b)
    (hdm : rd.Method = "DELETE")
    (hdp : Atoi (TrimPrefix rd.Path.data "/tasks/".data) = some id) :
    (exec api [Thread.start rp, Thread.start rd] [0, 0, 1, 1]).1.tasks.lookup id = none ∧
    (exec api [Thread.start rp, Thread.start rd] [1, 1, 0, 0]).1.tasks.lookup id = none ∧
    (exec api [Thread.start rp, Thread.start rd] [0, 1, 1]).1.tasks.lookup id = none ∧
    (exec api [Thread.start rp, Thread.start rd] [0, 1, 1]).2 =
      [Thread.checked rp id task,
        Thread.done (writeJSON 200 (Data.object "status" "deleted"))] ∧
    (exec api [Thread.start rp, Thread.start rd] [0, 1, 1, 0]).1.tasks.lookup id =
      some { task with Completed := b } ∧
    (exec api [Thread.start rp, Thread.start rd] [0, 1, 1, 0]).2 =
      [Thread.done (writeJSON 200 (Data.task { task with Completed := b })),
        Thread.done (writeJSON 200 (Data.object "status" "deleted"))] := by
  have cp := taskHandlerCheck_present api rp id task hpp hl
  have cd := taskHandlerCheck_present api rd id task hdp hl
  have ap := fun (s : API) (t : Task) => taskHandlerAct_put s rp id t b hpm hpb
  have ad := fun (s : API) (t : Task) => taskHandlerAct_delete s rd id t hdm
  have cd' : taskHandlerCheck
      { api with tasks := api.tasks.insert id { task with Completed := b } } rd =
      Except.ok (id, { task with Completed := b }) :=
    taskHandlerCheck_present _ rd id _ hdp (AList.lookup_insert _)
  have cp' : taskHandlerCheck { api with tasks := api.tasks.erase id } rp =
      Except.error (writeError 404 "task not found") :=
    taskHandlerCheck_absent _ rp id hpp (AList.lookup_erase id _)
  refine ⟨?_, ?_, ?_, ?_, ?_, ?_⟩
  · simp [exec, Thread.step, cp, ap, cd', ad]
  · simp [exec, Thread.step, cd, ad, cp']
  · simp [exec, Thread.step, cp, cd, ad]
  · simp [exec, Thread.step, cp, cd, ad]
  · simp [exec, Thread.step, cp, cd, ad, ap]
  · simp [exec, Thread.step, cp, cd, ad, ap]

theorem put_and_delete_in_flight_witness :
    (exec (API.mk (AList.singleton 7 ⟨7, "a", false⟩) 8)
      [Thread.start ⟨"PUT", "/tasks/7", ⟨none, some true⟩⟩,
        Thread.start ⟨"DELETE", "/tasks/7", ⟨none, none⟩⟩] [0, 0, 1, 1]).1.tasks.lookup 7 =
      none ∧
    (exec (API.mk (AList.singleton 7 ⟨7, "a", false⟩) 8)
      [Thread.start ⟨"PUT", "/tasks/7", ⟨none, some true⟩⟩,
        Thread.start ⟨"DELETE", "/tasks/7", ⟨none, none⟩⟩] [0, 1, 1, 0]).1.tasks.lookup 7 =
      some ⟨7, "a", true⟩ := by
  obtain ⟨h1, _, _, _, h5, _⟩ :=
    put_and_delete_in_flight (API.mk (AList.singleton 7 ⟨7, "a", false⟩) 8) 7 ⟨7, "a", false⟩
      true ⟨"PUT", "/tasks/7", ⟨none, some true⟩⟩ ⟨"DELETE", "/tasks/7", ⟨none, none⟩⟩
      (by decide) rfl (by decide) rfl rfl (by decide)
  exact ⟨h1, h5⟩

/-! ## Paths of items -/

theorem digitChar_toNat (d : Nat) (h : d < 10) : (digitChar d).toNat = 48 + d := by
  interval_cases d <;> rfl

theorem digitChar_ne_sign (d : Nat) (h : d < 10) :
    digitChar d ≠ '-' ∧ digitChar d ≠ '+' := by
  interval_cases d <;> decide

theorem parseDigits_digitChar (d : Nat) (h : d < 10) (cs : List Char) (a : Nat) :
    parseDigits (digitChar d :: cs) a = parseDigits cs (a * 10 + d) := by
  have e := digitChar_toNat d h
  have h1 : 48 ≤ (digitChar d).toNat ∧ (digitChar d).toNat ≤ 57 := by omega
  have h2 : (digitChar d).toNat - 48 = d := by omega
  rw [parseDigits, if_pos h1, h2]

/-- Reading back the digits written in front of `acc` continues on `acc` with the number
appended in decimal to what was read before. -/
theorem parseDigits_natTextAux : ∀ (fuel n : Nat) (acc : List Char), n < fuel →
    ∃ len : Nat, ∀ a : Nat,
      parseDigits (natTextAux fuel n acc) a = parseDigits acc (a * 10 ^ len + n) := by
  intro fuel
  induction fuel with
  | zero => intro n acc h; omega
  | succ fuel ih =>
    intro n acc h
    by_cases hn : n < 10
    · refine ⟨1, fun a => ?_⟩
      rw [natTextAux, if_pos hn, parseDigits_digitChar n hn, pow_one]
    · obtain ⟨len, hlen⟩ := ih (n / 10) (digitChar (n % 10) :: acc) (by omega)
      refine ⟨len + 1, fun a => ?_⟩
      rw [natTextAux, if_neg hn, hlen, parseDigits_digitChar (n % 10) (by omega)]
      have e : (a * 10 ^ len + n / 10) * 10 + n % 10 = a * 10 ^ (len + 1) + n := by
        have h2 : n / 10 * 10 + n % 10 = n := by omega
        calc (a * 10 ^ len + n / 10) * 10 + n % 10
            = a * 10 ^ (len + 1) + (n / 10 * 10 + n % 10) := by ring
          _ = a * 10 ^ (len + 1) + n := by rw [h2]
      rw [e]

theorem natTextAux_head : ∀ (fuel n : Nat) (acc : List Char), n < fuel →
    ∃ (d : Nat) (cs : List Char), d < 10 ∧ natTextAux fuel n acc = digitChar d :: cs := by
  intro fuel
  induction fuel with
  | zero => intro n acc h; omega
  | succ fuel ih =>
    intro n acc h
    by_cases hn : n < 10
    · exact ⟨n, acc, hn, by rw [natTextAux, if_pos hn]⟩
    · obtain ⟨d, cs, hd, e⟩ := ih (n / 10) (digitChar (n % 10) :: acc) (by omega)
      exact ⟨d, cs, hd, by rw [natTextAux, if_neg hn, e]⟩

theorem parseUint_natText (n : Nat) : parseUint (natText n) = some n := by
  obtain ⟨d, cs, _, e⟩ := natTextAux_head (n + 1) n [] (Nat.lt_succ_self n)
  obtain ⟨len, h⟩ := parseDigits_natTextAux (n + 1) n [] (Nat.lt_succ_self n)
  have hne : natText n ≠ [] := by rw [natText, e]; exact List.cons_ne_nil _ _
  rw [parseUint, if_neg hne, natText, h 0]
  simp [parseDigits]

/-- The function `strconv.Atoi` reads back what `strconv.Itoa` writes. -/
theorem Atoi_Itoa (k : Int) (h₁ : -2 ^ 63 ≤ k) (h₂ : k < 2 ^ 63) : Atoi (Itoa k) = some k := by
  by_cases hk : k < 0
  · rw [Itoa, if_pos hk, Atoi]
    simp only [if_true, parseUint_natText, Option.bind]
    have hle : k.natAbs ≤ 2 ^ 63 := by omega
    rw [if_pos hle]
    congr 1
    omega
  · obtain ⟨d, cs, hd, e⟩ := natTextAux_head (k.toNat + 1) k.toNat [] (Nat.lt_succ_self _)
    have e' : natText k.toNat = digitChar d :: cs := e
    have hp := parseUint_natText k.toNat
    rw [e'] at hp
    obtain ⟨hm, hp'⟩ := digitChar_ne_sign d hd
    rw [Itoa, if_neg hk, e', Atoi]
    simp only [if_neg hm, if_neg hp', hp, Option.bind]
    have hlt : k.toNat < 2 ^ 63 := by omega
    rw [if_pos hlt]
    congr 1
    omega

theorem TrimPrefix_append (pre x : List Char) : TrimPrefix (pre ++ x) pre = x := by
  have h : pre.isPrefixOf (pre ++ x) = true :=
    List.isPrefixOf_iff_prefix.2 (List.prefix_append pre x)
  rw [TrimPrefix, if_pos h, List.drop_left]

/-- The path written for an `int` id is read by `taskHandler` as that id. -/
theorem Atoi_itemPath (k : Int) (h₁ : -2 ^ 63 ≤ k) (h₂ : k < 2 ^ 63) :
    Atoi (TrimPrefix (itemPath k).data "/tasks/".data) = some k := by
  have e : (itemPath k).data = "/tasks/".data ++ Itoa k := rfl
  rw [e, TrimPrefix_append]
  exact Atoi_Itoa k h₁ h₂

/-! ## Runs across the wrap of the counter -/

theorem run_append (cs₁ : List Call) : ∀ (api : API) (cs₂ : List Call),
    run api (cs₁ ++ cs₂) =
      ((run (run api cs₁).1 cs₂).1, (run api cs₁).2 ++ (run (run api cs₁).1 cs₂).2) := by
  induction cs₁ with
  | nil => intro api cs₂; rfl
  | cons c cs₁ ih =>
    intro api cs₂
    rw [List.cons_append, run, ih, run]
    rfl

theorem erase_insert_empty (k : Int) (t : Task) :
    ((∅ : TaskMap).insert k t).erase k = ∅ := by
  apply AList.ext
  simp [AList.erase, AList.insert_entries_of_neg (AList.not_mem_empty k)]

/-- On an empty store with the counter at `k`, creating and deleting `n` times leaves the
store empty with the counter at `k + n` as an `int`; the ids returned are `k`, `k + 1`, ...
as `int` values. -/
theorem run_churn (n : Nat) : ∀ k : Int, -2 ^ 63 ≤ k → k < 2 ^ 63 →
    (run ⟨∅, k⟩ (churn n k)).1 = ⟨∅, wrapInt (k + (n : Int))⟩ ∧
    createdIDs (run ⟨∅, k⟩ (churn n k)).2 =
      (List.range n).map (fun j : Nat => wrapInt (k + (j : Int))) := by
  induction n with
  | zero =>
    intro k h₁ h₂
    refine ⟨?_, rfl⟩
    simp only [churn, run, Nat.cast_zero, add_zero, wrapInt_of_range k h₁ h₂]
  | succ n ih =>
    intro k h₁ h₂
    have hs1 : handle ⟨∅, k⟩ (Call.collection ⟨"POST", "/tasks", ⟨some "", none⟩⟩) =
        (⟨(∅ : TaskMap).insert k ⟨k, "", false⟩, wrapInt (k + 1)⟩,
          writeJSON 201 (Data.task ⟨k, "", false⟩)) :=
      tasksHandler_post ⟨∅, k⟩ _ "" rfl rfl
    have hs2 : handle ⟨(∅ : TaskMap).insert k ⟨k, "", false⟩, wrapInt (k + 1)⟩
        (Call.item ⟨"DELETE", itemPath k, ⟨none, none⟩⟩) =
        (⟨∅, wrapInt (k + 1)⟩, writeJSON 200 (Data.object "status" "deleted")) := by
      have h := taskHandler_delete ⟨(∅ : TaskMap).insert k ⟨k, "", false⟩, wrapInt (k + 1)⟩
        ⟨"DELETE", itemPath k, ⟨none, none⟩⟩ k ⟨k, "", false⟩ (Atoi_itemPath k h₁ h₂)
        (AList.lookup_insert _) rfl
      rw [handle, h, erase_insert_empty]
    obtain ⟨r₁, r₂⟩ := wrapInt_range (k + 1)
    obtain ⟨ih1, ih2⟩ := ih (wrapInt (k + 1)) r₁ r₂
    have e : (n : Int) + 1 = 1 + (n : Int) := by ring
    constructor
    · simp only [churn, run, hs1, hs2, ih1, wrapInt_add]
      push_cast
      rw [e, add_assoc]
    · have c1 : createdID (writeJSON 201 (Data.task ⟨k, "", false⟩)) = some k := rfl
      have c2 : createdID (writeJSON 200 (Data.object "status" "deleted")) = none := rfl
      simp only [churn, run, hs1, hs2, createdIDs, List.filterMap_cons, c1, c2]
      rw [List.range_succ_eq_map, List.map_cons, List.map_map]
      refine List.cons_eq_cons.2 ⟨?_, ?_⟩
      · show k = wrapInt (k + ((0 : Nat) : Int))
        rw [Nat.cast_zero, add_zero, wrapInt_of_range k h₁ h₂]
      · have ih2' : List.filterMap createdID (run ⟨∅, wrapInt (k + 1)⟩
            (churn n (wrapInt (k + 1)))).2 =
            (List.range n).map (fun j : Nat => wrapInt (wrapInt (k + 1) + (j : Int))) := ih2
        rw [ih2']
        apply List.map_congr_left
        intro j _
        show wrapInt (wrapInt (k + 1) + (j : Int)) = wrapInt (k + ((j + 1 : Nat) : Int))
        rw [wrapInt_add]
        push_cast
        rw [add_assoc, add_comm (1 : Int)]

theorem handle_post_empty (k : Int) :
    handle ⟨∅, k⟩ (Call.collection ⟨"POST", "/tasks", ⟨some "", none⟩⟩) =
      (⟨(∅ : TaskMap).insert k ⟨k, "", false⟩, wrapInt (k + 1)⟩,
        writeJSON 201 (Data.task ⟨k, "", false⟩)) :=
  tasksHandler_post ⟨∅, k⟩ _ "" rfl rfl

/-- After `n` rounds of create and delete on an empty store with the counter at `k`, one
more creation returns the id `k + n` as an `int`, stores the task under it and leaves the
counter at `k + n + 1` as an `int`. -/
theorem run_churn_then_post (n : Nat) (k : Int) (h₁ : -2 ^ 63 ≤ k) (h₂ : k < 2 ^ 63) :
    (run ⟨∅, k⟩ (churn n k ++ [Call.collection ⟨"POST", "/tasks", ⟨some "", none⟩⟩])).1 =
      ⟨(∅ : TaskMap).insert (wrapInt (k + (n : Int))) ⟨wrapInt (k + (n : Int)), "", false⟩,
        wrapInt (k + (n : Int) + 1)⟩ ∧
    createdIDs
        (run ⟨∅, k⟩ (churn n k ++ [Call.collection ⟨"POST", "/tasks", ⟨some "", none⟩⟩])).2 =
      (List.range n).map (fun j : Nat => wrapInt (k + (j : Int))) ++
        [wrapInt (k + (n : Int))] := by
  obtain ⟨s1, s2⟩ := run_churn n k h₁ h₂
  have hp := handle_post_empty (wrapInt (k + (n : Int)))
  have e : run ⟨∅, wrapInt (k + (n : Int))⟩
      [Call.collection ⟨"POST", "/tasks", ⟨some "", none⟩⟩] =
      (⟨(∅ : TaskMap).insert (wrapInt (k + (n : Int))) ⟨wrapInt (k + (n : Int)), "", false⟩,
        wrapInt (wrapInt (k + (n : Int)) + 1)⟩,
        [writeJSON 201 (Data.task ⟨wrapInt (k + (n : Int)), "", false⟩)]) := by
    rw [run, hp]
    rfl
  rw [run_append, s1, e]
  constructor
  · rw [wrapInt_succ]
  · rw [createdIDs, List.filterMap_append]
    have s2' : List.filterMap createdID (run ⟨∅, k⟩ (churn n k)).2 =
        (List.range n).map (fun j : Nat => wrapInt (k + (j : Int))) := s2
    rw [s2']
    rfl

/-- C1, as stated, fails.  From `NewAPI`, create a task and delete it again `2^63 - 1` times
(ids 1 to 9223372036854775807), then create once more: this is the `2^63`-th successful
creation, and the id it returns is -9223372036854775808, because `nextID++` has wrapped; so
the returned ids are not 1, 2, 3, ... -/
theorem created_id_wraps :
    (createdIDs (run NewAPI (churn 9223372036854775807 1 ++
      [Call.collection ⟨"POST", "/tasks", ⟨some "", none⟩⟩])).2).length =
      9223372036854775808 ∧
    (-9223372036854775808 : Int) ∈ createdIDs (run NewAPI (churn 9223372036854775807 1 ++
      [Call.collection ⟨"POST", "/tasks", ⟨some "", none⟩⟩])).2 ∧
    createdIDs (run NewAPI (churn 9223372036854775807 1 ++
      [Call.collection ⟨"POST", "/tasks", ⟨some "", none⟩⟩])).2 ≠
      (List.range (createdIDs (run NewAPI (churn 9223372036854775807 1 ++
        [Call.collection ⟨"POST", "/tasks", ⟨some "", none⟩⟩])).2).length).map
        (fun k : Nat => (k : Int) + 1) := by
  have h : createdIDs (run NewAPI (churn 9223372036854775807 1 ++
      [Call.collection ⟨"POST", "/tasks", ⟨some "", none⟩⟩])).2 = _ :=
    (run_churn_then_post 9223372036854775807 1 (by norm_num) (by norm_num)).2
  have hw : wrapInt (1 + ((9223372036854775807 : Nat) : Int)) = -9223372036854775808 := by
    decide
  rw [hw] at h
  have hmem : (-9223372036854775808 : Int) ∈
      createdIDs (run NewAPI (churn 9223372036854775807 1 ++
        [Call.collection ⟨"POST", "/tasks", ⟨some "", none⟩⟩])).2 := by
    rw [h]; exact List.mem_append_right _ (List.mem_singleton.2 rfl)
  refine ⟨?_, hmem, ?_⟩
  · rw [h, List.length_append, List.length_map, List.length_range]
    rfl
  · intro e
    rw [e] at hmem
    simp only [List.mem_map, List.mem_range] at hmem
    obtain ⟨k, _, hk⟩ := hmem
    omega

/-- C2, as stated, fails.  From `NewAPI`, create a task and delete it again `2^63 - 2` times,
then create once more: the store then holds a task under the key 9223372036854775807 while
`nextID` has wrapped to -9223372036854775808, so that key is not below `nextID`. -/
theorem key_not_below_wrapped_counter :
    (run NewAPI (churn 9223372036854775806 1 ++
      [Call.collection ⟨"POST", "/tasks", ⟨some "", none⟩⟩])).1.tasks.lookup
        9223372036854775807 = some ⟨9223372036854775807, "", false⟩ ∧
    (run NewAPI (churn 9223372036854775806 1 ++
      [Call.collection ⟨"POST", "/tasks", ⟨some "", none⟩⟩])).1.nextID =
        -9223372036854775808 ∧
    ¬ ((9223372036854775807 : Int) < (run NewAPI (churn 9223372036854775806 1 ++
      [Call.collection ⟨"POST", "/tasks", ⟨some "", none⟩⟩])).1.nextID) := by
  have h : (run NewAPI (churn 9223372036854775806 1 ++
      [Call.collection ⟨"POST", "/tasks", ⟨some "", none⟩⟩])).1 = _ :=
    (run_churn_then_post 9223372036854775806 1 (by norm_num) (by norm_num)).1
  have hw : wrapInt (1 + ((9223372036854775806 : Nat) : Int)) = 9223372036854775807 := by
    decide
  have hw2 : wrapInt (1 + ((9223372036854775806 : Nat) : Int) + 1) =
      -9223372036854775808 := by decide
  rw [hw, hw2] at h
  rw [h]
  exact ⟨AList.lookup_insert _, rfl, by decide⟩

/-- C6, as stated, fails.  From `NewAPI`, create task 1 and delete it (the DELETE answers
200); then create a task and delete it again `2^64 - 1` times, which takes the counter once
around the 64-bit `int` and back to 1; then create once more: that creation returns the id 1
again and the store holds a task under the key 1. -/
theorem deleted_id_is_issued_again :
    (taskHandler (run NewAPI [Call.collection ⟨"POST", "/tasks", ⟨some "", none⟩⟩]).1
      ⟨"DELETE", "/tasks/1", ⟨none, none⟩⟩).2.status = 200 ∧
    (run (taskHandler (run NewAPI [Call.collection ⟨"POST", "/tasks", ⟨some "", none⟩⟩]).1
        ⟨"DELETE", "/tasks/1", ⟨none, none⟩⟩).1
      (churn 18446744073709551615 2 ++
        [Call.collection ⟨"POST", "/tasks", ⟨some "", none⟩⟩])).1.tasks.lookup 1 =
      some ⟨1, "", false⟩ ∧
    (1 : Int) ∈ createdIDs
      (run (taskHandler (run NewAPI [Call.collection ⟨"POST", "/tasks", ⟨some "", none⟩⟩]).1
        ⟨"DELETE", "/tasks/1", ⟨none, none⟩⟩).1
      (churn 18446744073709551615 2 ++
        [Call.collection ⟨"POST", "/tasks", ⟨some "", none⟩⟩])).2 := by
  have hs : (taskHandler (run NewAPI [Call.collection ⟨"POST", "/tasks", ⟨some "", none⟩⟩]).1
      ⟨"DELETE", "/tasks/1", ⟨none, none⟩⟩) =
      (⟨∅, 2⟩, writeJSON 200 (Data.object "status" "deleted")) := by
    have h := taskHandler_delete
      (run NewAPI [Call.collection ⟨"POST", "/tasks", ⟨some "", none⟩⟩]).1
      ⟨"DELETE", "/tasks/1", ⟨none, none⟩⟩ 1 ⟨1, "", false⟩ (by decide) (by decide) rfl
    rw [h]
    rfl
  obtain ⟨c1, c2⟩ := run_churn_then_post 18446744073709551615 2 (by norm_num) (by norm_num)
  have hw : wrapInt (2 + ((18446744073709551615 : Nat) : Int)) = 1 := by decide
  rw [hw] at c1 c2
  rw [hs]
  refine ⟨rfl, ?_, ?_⟩
  · rw [c1]
    exact AList.lookup_insert _
  · rw [c2]
    exact List.mem_append_right _ (List.mem_singleton.2 rfl)

/-! ## A PUT body without `completed` -/

end TaskAPI
